import Mathlib

/-!
Verification development for the smr.io text-processor backend.

The code under scrutiny lives in `backend/text_processor/` (Django app):
`models.py` (the fragment verifier `Fragment._calculate_similarity_scores`
and the submission state machine), `processors.py` (the pipeline
orchestrator `TextProcessor`), and `services.py` (`OpenAIService` and
`split_into_sentences`).

Shallow embedding conventions:
* Python `str` is modelled as `List Char` (the backend inputs are ASCII;
  `str.lower`, `str.strip`, `\w` word characters are modelled at ASCII
  granularity, matching Python behaviour on ASCII text).
* Python floats are modelled as exact rationals `ℚ`.  All similarity
  metrics in the source are integer percentages combined with the literal
  weights 0.3/0.4/0.15/0.15, modelled as 3/10, 2/5, 3/20, 3/20.
* The similarity metrics `fuzz.ratio`, `fuzz.partial_ratio`,
  `fuzz.token_sort_ratio`, `fuzz.token_set_ratio` (fuzzywuzzy 0.18, pure
  python backend) and `difflib.SequenceMatcher` (autojunk on, no isjunk
  argument) are not part of the repository; they are ported here faithfully
  from those libraries because `_calculate_similarity_scores` calls them.
* Django ORM persistence is modelled as explicit record/state passing;
  `save(update_fields=...)` becomes functional record update.
* The external OpenAI calls are modelled as an explicit environment `Gen`
  whose per-call results are `Except` values (error = raised exception with
  the exception text as payload).
-/

namespace TextProc

abbrev Str := List Char

/-- Python `str.lower()` (per-character, ASCII). -/
def lowerStr (s : Str) : Str := s.map Char.toLower

/-- Python `str.strip()`: drop whitespace from both ends. -/
def stripWs (s : Str) : Str :=
  ((s.dropWhile Char.isWhitespace).reverse.dropWhile Char.isWhitespace).reverse

/-- Python `str.strip(chars)`: drop characters from `cs` from both ends. -/
def stripChars (cs : List Char) (s : Str) : Str :=
  ((s.dropWhile (· ∈ cs)).reverse.dropWhile (· ∈ cs)).reverse

/-- Python `hay.find(pat)`: index of the first occurrence of `pat` in `hay`,
`none` when absent (Python returns -1).  `hay.find("")` is `0` in Python,
and likewise `strFind hay [] = some 0`. -/
def strFind (hay pat : Str) : Option Nat :=
  if pat.length ≤ hay.length then
    (((List.range (hay.length - pat.length + 1)).filter
      (fun i => decide ((hay.drop i).take pat.length = pat)))).head?
  else none

/-- Maximal runs of characters satisfying `p` (auxiliary, accumulator holds
the current run reversed). -/
def runsAux (p : Char → Bool) : Str → Str → List Str
  | [], cur => if cur = [] then [] else [cur.reverse]
  | c :: rest, cur =>
    if p c then runsAux p rest (c :: cur)
    else if cur = [] then runsAux p rest []
    else cur.reverse :: runsAux p rest []

/-- Maximal runs of characters satisfying `p`. -/
def runs (p : Char → Bool) (s : Str) : List Str := runsAux p s []

/-- A regex `\w` word character (ASCII): alphanumeric or underscore. -/
def isWordChar (c : Char) : Bool := c.isAlphanum || c = '_'

/-- Python `re.findall(r"\b\w+\b", s)`: the maximal word-character runs. -/
def wordTokens (s : Str) : List Str := runs isWordChar s

/-- Python `s.split()`: split on whitespace runs, dropping empty pieces. -/
def splitWs (s : Str) : List Str := runs (fun c => !c.isWhitespace) s

/-- Python `<` on strings: lexicographic comparison by code point. -/
def ltStr : Str → Str → Bool
  | [], [] => false
  | [], _ :: _ => true
  | _ :: _, [] => false
  | a :: as, b :: bs => if a = b then ltStr as bs else decide (a < b)

/-- Insert into a sorted list (ascending, `ltStr` order). -/
def insertStr (x : Str) : List Str → List Str
  | [] => [x]
  | y :: ys => if ltStr y x then y :: insertStr x ys else x :: y :: ys

/-- Python `sorted` on a list of strings (insertion sort; the order is total,
so it agrees with any sorting algorithm). -/
def sortStr : List Str → List Str
  | [] => []
  | x :: xs => insertStr x (sortStr xs)

/-- Python `" ".join(l)`. -/
def joinSpace : List Str → Str
  | [] => []
  | [x] => x
  | x :: y :: rest => x ++ ' ' :: joinSpace (y :: rest)

/-! ## difflib.SequenceMatcher (python standard library, ported)

`SequenceMatcher(None, a, b)`: no `isjunk` argument, `autojunk=True`.
Needed because `_calculate_similarity_scores` uses
`difflib.SequenceMatcher(...).get_matching_blocks()` directly and because
the fuzzywuzzy metrics are built on it. -/

/-- Autojunk rule of `SequenceMatcher.__chain_b`: when `len(b) >= 200`,
characters occurring more than `len(b) // 100 + 1` times in `b` are
"popular" and treated as junk. -/
def isPopular (b : Str) (c : Char) : Bool :=
  decide (200 ≤ b.length) && decide (b.length / 100 + 1 < (b.filter (· = c)).length)

/-- The `b2j` mapping: ascending list of indices of `c` in `b`, with popular
characters removed (empty list). -/
def b2j (b : Str) (c : Char) : List Nat :=
  if isPopular b c then []
  else (List.range b.length).filter (fun j => decide (b.getD j ' ' = c))

/-- One `j` step of the inner loop of `find_longest_match`.  `prev` is the
previous row `j2len`, `acc` is the row being built (`newj2len`), and the
best triple is `(besti, bestj, bestsize)`.  Python reads
`j2len.get(j-1, 0)`; for `j = 0` the key is `-1`, which is never present,
modelled by the `j = 0` test.  `besti = i-k+1` is non-negative in Python
(`k ≤ i+1` always holds); Nat subtraction agrees on reachable states. -/
def flmInner (prev : Nat → Nat) (i : Nat)
    (st : (Nat × Nat × Nat) × (Nat → Nat)) (j : Nat) :
    (Nat × Nat × Nat) × (Nat → Nat) :=
  let k := (if j = 0 then 0 else prev (j - 1)) + 1
  let acc2 := fun x => if x = j then k else st.2 x
  if st.1.2.2 < k then ((i + 1 - k, j + 1 - k, k), acc2) else (st.1, acc2)

/-- One `i` iteration of the core loop: scan `b2j[a[i]]`, skipping
`j < blo` and stopping at `j >= bhi` (the indices are ascending, so the
skip/break pair is a filter), with a fresh `newj2len` row. -/
def flmOuter (a b : Str) (blo bhi : Nat)
    (st : (Nat × Nat × Nat) × (Nat → Nat)) (i : Nat) :
    (Nat × Nat × Nat) × (Nat → Nat) :=
  let js := (b2j b (a.getD i ' ')).filter
    (fun j => decide (blo ≤ j) && decide (j < bhi))
  js.foldl (flmInner st.2 i) (st.1, fun _ => 0)

/-- The core dynamic-programming loop of `find_longest_match` (before the
junk/non-junk extension loops), iterating `i` over `range(alo, ahi)`. -/
def flmCore (a b : Str) (alo ahi blo bhi : Nat) : Nat × Nat × Nat :=
  ((List.range' alo (ahi - alo)).foldl (flmOuter a b blo bhi)
    ((alo, blo, 0), fun _ => 0)).1

/-- Fuelled worker for the "extend downwards" while-loops of
`find_longest_match`.  The fuel is structural so the definition evaluates
by kernel reduction; the loop decreases `besti` by one per iteration and
runs only while `alo < besti`, so starting fuel `besti` can run out only
in a state whose guard is false anyway (fuel 0 forces `besti = 0` and
`alo < 0` is false), making the fuelled loop extensionally the `while`
loop of the source. -/
def extendLowF (a b : Str) (junkVal : Bool) (alo blo : Nat) :
    Nat → Nat → Nat → Nat → Nat × Nat × Nat
  | 0, besti, bestj, bestsize => (besti, bestj, bestsize)
  | fuel + 1, besti, bestj, bestsize =>
    if alo < besti ∧ blo < bestj ∧
        isPopular b (b.getD (bestj - 1) ' ') = junkVal ∧
        a.getD (besti - 1) ' ' = b.getD (bestj - 1) ' ' then
      extendLowF a b junkVal alo blo fuel (besti - 1) (bestj - 1) (bestsize + 1)
    else (besti, bestj, bestsize)

/-- One of the two "extend downwards" while-loops of `find_longest_match`
(`junkVal = false` for the non-junk pass, `true` for the junk pass). -/
def extendLow (a b : Str) (junkVal : Bool) (alo blo besti bestj bestsize : Nat) :
    Nat × Nat × Nat :=
  extendLowF a b junkVal alo blo besti besti bestj bestsize

/-- Fuelled worker for the "extend upwards" while-loops (only `bestsize`
changes).  The loop runs only while `besti + bestsize < ahi`, so starting
fuel `ahi` can run out only in a state whose guard is false anyway. -/
def extendHighF (a b : Str) (junkVal : Bool) (ahi bhi besti bestj : Nat) :
    Nat → Nat → Nat
  | 0, bestsize => bestsize
  | fuel + 1, bestsize =>
    if besti + bestsize < ahi ∧ bestj + bestsize < bhi ∧
        isPopular b (b.getD (bestj + bestsize) ' ') = junkVal ∧
        a.getD (besti + bestsize) ' ' = b.getD (bestj + bestsize) ' ' then
      extendHighF a b junkVal ahi bhi besti bestj fuel (bestsize + 1)
    else bestsize

/-- One of the two "extend upwards" while-loops of `find_longest_match`. -/
def extendHigh (a b : Str) (junkVal : Bool) (ahi bhi besti bestj bestsize : Nat) :
    Nat :=
  extendHighF a b junkVal ahi bhi besti bestj ahi bestsize

/-- `SequenceMatcher.find_longest_match(alo, ahi, blo, bhi)`: the core loop
followed by the four extension loops (low non-junk, high non-junk, low
junk, high junk), in source order. -/
def findLongestMatch (a b : Str) (alo ahi blo bhi : Nat) : Nat × Nat × Nat :=
  let c := flmCore a b alo ahi blo bhi
  let e1 := extendLow a b false alo blo c.1 c.2.1 c.2.2
  let s2 := extendHigh a b false ahi bhi e1.1 e1.2.1 e1.2.2
  let e3 := extendLow a b true alo blo e1.1 e1.2.1 s2
  let s4 := extendHigh a b true ahi bhi e3.1 e3.2.1 e3.2.2
  (e3.1, e3.2.1, s4)

/-- The region recursion of `get_matching_blocks`, fuelled.  The source uses
an explicit LIFO queue of regions; since each region is processed
independently and the final list is sorted, the multiset of emitted blocks
is that of this recursion, and the recursion already emits them in
ascending order (the a-coordinates of distinct blocks are disjoint).  The
fuel `(ahi - alo) + (bhi - blo) + 1` strictly exceeds the recursion depth
because every recursive region is strictly smaller (proved below as
`matchingBlocksRec` never exhausts its fuel at the call site used here). -/
def matchingBlocksRec (a b : Str) : Nat → Nat → Nat → Nat → Nat → List (Nat × Nat × Nat)
  | 0, _, _, _, _ => []
  | fuel + 1, alo, ahi, blo, bhi =>
    let m := findLongestMatch a b alo ahi blo bhi
    if m.2.2 = 0 then []
    else
      (if alo < m.1 ∧ blo < m.2.1 then
        matchingBlocksRec a b fuel alo m.1 blo m.2.1 else []) ++
      (m.1, m.2.1, m.2.2) ::
      (if m.1 + m.2.2 < ahi ∧ m.2.1 + m.2.2 < bhi then
        matchingBlocksRec a b fuel (m.1 + m.2.2) ahi (m.2.1 + m.2.2) bhi else [])

/-- The adjacency-merging second phase of `get_matching_blocks`
(`non_adjacent` construction): adjacent blocks are coalesced, zero-size
carriers are dropped. -/
def mergeAdjacent : List (Nat × Nat × Nat) → (Nat × Nat × Nat) →
    List (Nat × Nat × Nat) → List (Nat × Nat × Nat)
  | [], cur, acc => if cur.2.2 ≠ 0 then acc ++ [cur] else acc
  | blk :: rest, cur, acc =>
    if cur.1 + cur.2.2 = blk.1 ∧ cur.2.1 + cur.2.2 = blk.2.1 then
      mergeAdjacent rest (cur.1, cur.2.1, cur.2.2 + blk.2.2) acc
    else if cur.2.2 ≠ 0 then mergeAdjacent rest blk (acc ++ [cur])
    else mergeAdjacent rest blk acc

/-- `SequenceMatcher(None, a, b).get_matching_blocks()`: recursion over
regions, merge of adjacent blocks, terminal `(len(a), len(b), 0)` block. -/
def getMatchingBlocks (a b : Str) : List (Nat × Nat × Nat) :=
  let raw := matchingBlocksRec a b (a.length + b.length + 1) 0 a.length 0 b.length
  mergeAdjacent raw (0, 0, 0) [] ++ [(a.length, b.length, 0)]

/-- Total size of the matching blocks (the `matches` of `ratio()`). -/
def sumSizes (l : List (Nat × Nat × Nat)) : Nat := (l.map (fun t => t.2.2)).sum

/-- `SequenceMatcher.ratio()` via `_calculate_ratio(matches, len(a)+len(b))`:
`2*matches/length` when the total length is nonzero, else `1.0`. -/
def smRatio (a b : Str) : ℚ :=
  let m := sumSizes (getMatchingBlocks a b)
  if a.length + b.length ≠ 0 then
    (2 * m : ℚ) / ((a.length : ℚ) + (b.length : ℚ))
  else 1

/-! ## fuzzywuzzy 0.18 (pure-python backend, ported)

`fuzz.ratio` / `fuzz.partial_ratio` carry the decorators `check_for_none`
(irrelevant here), `check_for_equivalence` (equal inputs → 100) and
`check_empty_string` (an empty input → 0).  `utils.intr(n)` is
`int(round(n))`, i.e. round-half-to-even; it is modelled on exact
rationals (the source rounds the corresponding float). -/

/-- `int(round(q))`: round half to even. -/
def roundHalfEven (q : ℚ) : ℤ :=
  let f := ⌊q⌋
  let r := q - (f : ℚ)
  if r < 1/2 then f
  else if 1/2 < r then f + 1
  else if f % 2 = 0 then f else f + 1

/-- `fuzz.ratio(s1, s2)`. -/
def fuzzRatio (s1 s2 : Str) : ℚ :=
  if s1 = s2 then 100
  else if s1 = [] ∨ s2 = [] then 0
  else ((roundHalfEven (100 * smRatio s1 s2) : ℤ) : ℚ)

/-- The maximum of a list of scores (`max(scores)`; the lists passed here
are never empty, every score is non-negative, so the `0` default for `[]`
is unreachable). -/
def maxQ : List ℚ → ℚ
  | [] => 0
  | h :: t => t.foldl max h

/-- `fuzz.partial_ratio(s1, s2)`: for every matching block of
`SequenceMatcher(None, shorter, longer)`, compare `shorter` with the
length-`len(shorter)` slice of `longer` starting at `block.b - block.a`
(clamped at 0), return 100 as soon as a slice ratio exceeds 0.995, else
`intr(100 * max(scores))`.  The early return is modelled by the `any`
test: the returned value is 100 in either formulation. -/
def fuzzPartialRatio (s1 s2 : Str) : ℚ :=
  if s1 = s2 then 100
  else if s1 = [] ∨ s2 = [] then 0
  else
    let p := if s1.length ≤ s2.length then (s1, s2) else (s2, s1)
    let shorter := p.1
    let longer := p.2
    let blocks := getMatchingBlocks shorter longer
    let scores := blocks.map (fun blk =>
      let longStart := blk.2.1 - blk.1
      let longSub := (longer.drop longStart).take shorter.length
      smRatio shorter longSub)
    if scores.any (fun r => decide ((995 : ℚ)/1000 < r)) then 100
    else ((roundHalfEven (100 * maxQ scores) : ℤ) : ℚ)

/-- `utils.full_process(s, force_ascii=True)`: drop non-ASCII
(`asciidammit`), replace non-word characters (regex `\W`) by spaces,
lowercase, strip. -/
def fullProcess (s : Str) : Str :=
  stripWs (lowerStr ((s.filter (fun c => c.toNat < 128)).map
    (fun c => if isWordChar c then c else ' ')))

/-- `fuzz._process_and_sort(s, force_ascii=True)`:
`" ".join(sorted(full_process(s).split())).strip()`. -/
def processAndSort (s : Str) : Str :=
  stripWs (joinSpace (sortStr (splitWs (fullProcess s))))

/-- `fuzz.token_sort_ratio(s1, s2)` = `ratio` of the processed-and-sorted
strings. -/
def fuzzTokenSortRatio (s1 s2 : Str) : ℚ :=
  fuzzRatio (processAndSort s1) (processAndSort s2)

/-- `fuzz.token_set_ratio(s1, s2)` (`_token_set` with `partial=False`):
0 when either processed string is empty, otherwise the maximum of the
three `ratio`s between the sorted token intersection and the two
intersection-plus-difference combinations. -/
def fuzzTokenSetRatio (s1 s2 : Str) : ℚ :=
  let p1 := fullProcess s1
  let p2 := fullProcess s2
  if p1 = [] then 0
  else if p2 = [] then 0
  else
    let tokens1 := (splitWs p1).dedup
    let tokens2 := (splitWs p2).dedup
    let sortedSect := joinSpace (sortStr (tokens1.filter (· ∈ tokens2)))
    let sorted1to2 := joinSpace (sortStr (tokens1.filter (fun t => ¬ t ∈ tokens2)))
    let sorted2to1 := joinSpace (sortStr (tokens2.filter (fun t => ¬ t ∈ tokens1)))
    let combined1to2 := stripWs (sortedSect ++ ' ' :: sorted1to2)
    let combined2to1 := stripWs (sortedSect ++ ' ' :: sorted2to1)
    let sect := stripWs sortedSect
    max (fuzzRatio sect combined1to2)
      (max (fuzzRatio sect combined2to1) (fuzzRatio combined1to2 combined2to1))

/-! ## models.py: match types, the fragment verifier -/

/-- The `match_type` strings produced by `_calculate_similarity_scores`. -/
inductive MatchType where
  | exact
  | case_insensitive
  | partialMatch
  | wordOverlap
  | noMatch
deriving DecidableEq, Repr

/-- The dict returned by `Fragment._calculate_similarity_scores`. -/
structure MatchResult where
  similarity_score : ℚ
  start_position : Option Nat
  end_position : Option Nat
  match_type : MatchType
  verified : Bool
deriving DecidableEq, Repr

/-- `range(0, hi, step)` for `step ≥ 1` (`hi` already truncated at 0). -/
def pyRange (hi step : Nat) : List Nat :=
  (List.range ((hi + step - 1) / step)).map (· * step)

/-- Python `max(blocks, key=lambda x: x.size)`: first block of maximal
size.  The lists passed here are never empty (`get_matching_blocks` always
ends with the terminal block), so the `[]` default is unreachable. -/
def maxBlock : List (Nat × Nat × Nat) → Nat × Nat × Nat
  | [] => (0, 0, 0)
  | h :: t => t.foldl (fun acc x => if acc.2.2 < x.2.2 then x else acc) h

/-- One iteration of the sliding-window loop of
`_calculate_similarity_scores`: the state is `(best_score, best_match)`.
`if match_blocks:` is always true (the terminal block is always present),
so only the `longest_match.size > 0` test gates the `best_match` update. -/
def windowStep (fragment text : Str) (wsize : Nat)
    (st : ℚ × Option MatchResult) (i : Nat) : ℚ × Option MatchResult :=
  let endIdx := min (i + wsize) text.length
  let window := (text.drop i).take (endIdx - i)
  let ratioScore := fuzzRatio fragment window
  let partialScore := fuzzPartialRatio fragment window
  let tokenSortScore := fuzzTokenSortRatio fragment window
  let tokenSetScore := fuzzTokenSetRatio fragment window
  let combined := ratioScore * (3/10) + partialScore * (2/5) +
    tokenSortScore * (3/20) + tokenSetScore * (3/20)
  if st.1 < combined then
    let longest := maxBlock (getMatchingBlocks fragment window)
    let bm := if 0 < longest.2.2 then
        some { similarity_score := combined,
               start_position := some (i + longest.2.1),
               end_position := some (i + longest.2.1 + longest.2.2),
               match_type := .partialMatch,
               verified := decide ((70 : ℚ) ≤ combined) }
      else st.2
    (combined, bm)
  else st

/-- `Fragment._calculate_similarity_scores(original_text)` with
`self.content = content`.  Tier order from the source: exact `find`,
case-insensitive `find`, sliding-window fuzzy search, word-overlap
fallback when the best score is below 50, `no_match` default.
The Python loop bound `len(original_text) - fragment_len + 1` can be
negative (empty range); `text.length + 1 - fragmentLen` reproduces that
truncation in `Nat`. -/
def calculate_similarity_scores (content text : Str) : MatchResult :=
  let fragment := stripWs content
  match strFind text fragment with
  | some startPos =>
    { similarity_score := 100, start_position := some startPos,
      end_position := some (startPos + fragment.length),
      match_type := .exact, verified := true }
  | none =>
  match strFind (lowerStr text) (lowerStr fragment) with
  | some startPosCi =>
    { similarity_score := 95, start_position := some startPosCi,
      end_position := some (startPosCi + fragment.length),
      match_type := .case_insensitive, verified := true }
  | none =>
    let fragmentLen := fragment.length
    let searchWindowSize := min (fragmentLen + 100) text.length
    let idxs := pyRange (text.length + 1 - fragmentLen) (max 1 (fragmentLen / 4))
    let loopRes := idxs.foldl (windowStep fragment text searchWindowSize) (0, none)
    let afterWord :=
      if loopRes.1 < 50 then
        let fragmentWords := (wordTokens (lowerStr fragment)).dedup
        let textWords := (wordTokens (lowerStr text)).dedup
        if fragmentWords ≠ [] ∧ textWords ≠ [] then
          let overlap := (fragmentWords.filter (· ∈ textWords)).length
          let wordSimilarity : ℚ := ((overlap : ℚ) / (fragmentWords.length : ℚ)) * 100
          if loopRes.1 < wordSimilarity then
            some { similarity_score := wordSimilarity, start_position := none,
                   end_position := none, match_type := .wordOverlap,
                   verified := decide ((70 : ℚ) ≤ wordSimilarity) }
          else loopRes.2
        else loopRes.2
      else loopRes.2
    afterWord.getD
      { similarity_score := 0, start_position := none, end_position := none,
        match_type := .noMatch, verified := false }

/-! ## models.py: TextSubmission, Summary, Fragment and their methods -/

/-- `TextSubmission.STATUS_CHOICES`. -/
inductive SubStatus where
  | pending
  | processing
  | completed
  | failed
deriving DecidableEq, Repr

/-- A status is terminal when it is `completed` or `failed`. -/
def isTerminal (s : SubStatus) : Bool := s = .completed || s = .failed

/-- `TextSubmission` (the fields the claims are about; timestamps are not
referenced by any claim and are omitted). -/
structure TextSubmission where
  id : Nat
  original_text : Str
  status : SubStatus
  error_message : Option Str
deriving DecidableEq, Repr

/-- `TextSubmission.start_processing`: unconditionally sets
`status = "processing"`. -/
def start_processing (s : TextSubmission) : TextSubmission :=
  { s with status := .processing }

/-- `TextSubmission.mark_completed`: unconditionally sets
`status = "completed"`. -/
def mark_completed (s : TextSubmission) : TextSubmission :=
  { s with status := .completed }

/-- `TextSubmission.mark_failed(error_message)`: unconditionally sets
`status = "failed"` and stores the error message. -/
def mark_failed (msg : Str) (s : TextSubmission) : TextSubmission :=
  { s with status := .failed, error_message := some msg }

/-- The three state-machine operations on a submission. -/
inductive SubOp where
  | start
  | complete
  | fail (msg : Str)

/-- Apply a state-machine operation. -/
def applyOp (op : SubOp) (s : TextSubmission) : TextSubmission :=
  match op with
  | .start => start_processing s
  | .complete => mark_completed s
  | .fail m => mark_failed m s

/-- `Summary.SUMMARY_TYPE_CHOICES`. -/
inductive SumKind where
  | S1
  | S2
deriving DecidableEq, Repr

/-- A `Summary` row. -/
structure Summary where
  submission_id : Nat
  summary_type : SumKind
  content : Str
deriving DecidableEq, Repr

/-- `Fragment.FRAGMENT_TYPE_CHOICES`. -/
inductive FragKind where
  | F1
  | F2
deriving DecidableEq, Repr

/-- A `Fragment` row.  `created_at` is an abstract timestamp. -/
structure Fragment where
  submission_id : Nat
  fragment_type : FragKind
  content : Str
  start_position : Option Nat
  end_position : Option Nat
  verified : Bool
  similarity_score : ℚ
  related_sentence : Option Str
  sequence_number : Nat
  created_at : Nat
deriving DecidableEq, Repr

/-- `Fragment.objects.create(...)` with the model field defaults
(`start_position`/`end_position` null, `verified` false,
`similarity_score` 0). -/
def newFragment (subId : Nat) (ft : FragKind) (content : Str)
    (related : Option Str) (seq : Nat) : Fragment :=
  { submission_id := subId, fragment_type := ft, content := content,
    start_position := none, end_position := none, verified := false,
    similarity_score := 0, related_sentence := related,
    sequence_number := seq, created_at := 0 }

/-- `Fragment.verify_against_text(original_text)`: run the similarity
calculation and write back exactly the four fields
`similarity_score`, `start_position`, `end_position`, `verified`
(the source saves with `update_fields` naming exactly these four). -/
def verify_against_text (f : Fragment) (original_text : Str) : Fragment :=
  let m := calculate_similarity_scores f.content original_text
  { f with similarity_score := m.similarity_score,
           start_position := m.start_position,
           end_position := m.end_position,
           verified := m.verified }

/-! ## services.py: sentence splitting and justification extraction -/

/-- A sentence-ending punctuation character (`[.!?]`). -/
def isSentEnd (c : Char) : Bool := c = '.' || c = '!' || c = '?'

/-- Single pass of `re.split(r"[.!?]+\s+", text)`, fuelled so that it
evaluates by kernel reduction.  In scan mode (`skipping = false`), `cur`
is the reversed current piece and `pend` the reversed pending run of
sentence punctuation: when the run is followed by whitespace the regex
matches and the run and whitespace are consumed (the piece ends before
the run); otherwise the run is folded back into the piece.  In skip mode
(`skipping = true`) the `\s+` tail of a separator match is consumed and
scanning resumes (the next character may itself start a new separator);
a separator ending the string yields a final empty piece.  Each input
character costs at most two fuel units (one skip-mode step plus one
scan-mode step) and the final empty-input step costs one, so fuel
`2*len + 2` never runs out. -/
def sentSplitF : Nat → Bool → Str → Str → Str → List Str
  | 0, _, _, _, _ => []
  | _ + 1, false, [], cur, pend => [(pend ++ cur).reverse]
  | fuel + 1, false, c :: rest, cur, pend =>
    if isSentEnd c then sentSplitF fuel false rest cur (c :: pend)
    else if pend = [] then sentSplitF fuel false rest (c :: cur) []
    else if c.isWhitespace then cur.reverse :: sentSplitF fuel true rest [] []
    else sentSplitF fuel false rest (c :: (pend ++ cur)) []
  | _ + 1, true, [], _, _ => [[]]
  | fuel + 1, true, c :: rest, _, _ =>
    if c.isWhitespace then sentSplitF fuel true rest [] []
    else sentSplitF fuel false (c :: rest) [] []

/-- `services.split_into_sentences(text)`: regex split on the stripped
text, strip each piece, drop empties, re-append a `.` to pieces lacking
terminal punctuation. -/
def split_into_sentences (text : Str) : List Str :=
  let pieces :=
    sentSplitF (2 * (stripWs text).length + 2) false (stripWs text) [] []
  let cleaned := (pieces.map stripWs).filter (fun s => s ≠ [])
  cleaned.map (fun s => if isSentEnd (s.getLast?.getD ' ') then s else s ++ ['.'])

/-- The external generation collaborator (`OpenAIService` API calls as seen
by the orchestrator): each call either returns text or raises, with the
exception text as the error payload. -/
structure Gen where
  s1 : Except Str Str
  f1 : Except Str (List Str)
  s2 : List Str → Except Str Str
  just : Str → Except Str Str

/-- The placeholder content `[Error extracting justification: {e}]` used
when a single sentence's justification call fails. -/
def errorMarker (e : Str) : Str :=
  (r"[Error extracting justification: ").data ++ e ++ (r"]").data

/-- The cleanup `justification.strip().strip('"').strip("'")`. -/
def cleanJustification (j : Str) : Str :=
  stripChars [Char.ofNat 39] (stripChars ['"'] (stripWs j))

/-- `OpenAIService.extract_justification_fragments(original_text,
summary_sentences)`: one external call per sentence, in order; a failing
call is caught inside the loop and degraded to the error-marker placeholder
for that sentence only.  The function is total: the stage itself never
raises. -/
def extract_justification_fragments (gen : Gen) (original_text : Str)
    (sentences : List Str) : List (Str × Str) :=
  sentences.map (fun s =>
    match gen.just s with
    | .ok j => (s, cleanJustification j)
    | .error e => (s, errorMarker e))

/-! ## processors.py: verification summary and the full pipeline -/

/-- The `verification_summary` dict computed (with identical code) in
`TextProcessor._compile_results` and `TextProcessor.complete_verification`. -/
structure VerificationSummary where
  F1_total : Nat
  F1_verified : Nat
  F1_verification_rate : ℚ
  F2_total : Nat
  F2_verified : Nat
  F2_verification_rate : ℚ
  overall_verification_rate : ℚ
deriving DecidableEq, Repr

/-- The verification-summary computation: each rate is
`verified / total` when `total > 0`, else the integer `0`; the overall
rate is computed over the combined F1+F2 counts. -/
def verificationSummary (f1 f2 : List Fragment) : VerificationSummary :=
  let f1v := (f1.filter (fun f => f.verified)).length
  let f2v := (f2.filter (fun f => f.verified)).length
  { F1_total := f1.length, F1_verified := f1v,
    F1_verification_rate :=
      if 0 < f1.length then (f1v : ℚ) / (f1.length : ℚ) else 0,
    F2_total := f2.length, F2_verified := f2v,
    F2_verification_rate :=
      if 0 < f2.length then (f2v : ℚ) / (f2.length : ℚ) else 0,
    overall_verification_rate :=
      if 0 < f1.length + f2.length then
        ((f1v : ℚ) + (f2v : ℚ)) / ((f1.length : ℚ) + (f2.length : ℚ))
      else 0 }

/-- The persisted rows. -/
structure DB where
  summaries : List Summary
  fragments : List Fragment
deriving DecidableEq, Repr

/-- Result of a full pipeline run: the final submission record, the final
database, the call outcome (`error` = the re-raised exception text), and
the sequence of status values the submission passes through. -/
structure PipelineResult where
  sub : TextSubmission
  db : DB
  outcome : Except Str Unit
  trace : List SubStatus

/-- `TextProcessor.process_text_submission`: runs the four stages in
order.  Any stage exception is caught once at the orchestrator boundary:
the submission is marked failed with the exception text and
`Exception(f"Text processing failed: {e}")` is re-raised; rows persisted
by earlier stages are left untouched.  Stage 2 and stage 4 create each
fragment and verify it immediately against the original text.
(The source's inner `try` around the re-fetch in the except block is
modelled as succeeding.) -/
def process_text_submission (gen : Gen) (sub0 : TextSubmission) (db0 : DB) :
    PipelineResult :=
  let sub1 := start_processing sub0
  match gen.s1 with
  | .error e =>
    { sub := mark_failed e sub1, db := db0,
      outcome := .error ((r"Text processing failed: ").data ++ e),
      trace := [sub0.status, .processing, .failed] }
  | .ok s1c =>
    let db1 : DB := { db0 with summaries := db0.summaries ++
      [{ submission_id := sub0.id, summary_type := .S1, content := s1c }] }
    match gen.f1 with
    | .error e =>
      { sub := mark_failed e sub1, db := db1,
        outcome := .error ((r"Text processing failed: ").data ++ e),
        trace := [sub0.status, .processing, .failed] }
    | .ok f1list =>
      let f1objs := f1list.enum.map (fun p =>
        verify_against_text (newFragment sub0.id .F1 p.2 none (p.1 + 1))
          sub0.original_text)
      let db2 : DB := { db1 with fragments := db1.fragments ++ f1objs }
      match gen.s2 f1list with
      | .error e =>
        { sub := mark_failed e sub1, db := db2,
          outcome := .error ((r"Text processing failed: ").data ++ e),
          trace := [sub0.status, .processing, .failed] }
      | .ok s2c =>
        let db3 : DB := { db2 with summaries := db2.summaries ++
          [{ submission_id := sub0.id, summary_type := .S2, content := s2c }] }
        let sentences := split_into_sentences s1c
        let pairs := extract_justification_fragments gen sub0.original_text sentences
        let f2objs := pairs.enum.map (fun p =>
          verify_against_text
            (newFragment sub0.id .F2 p.2.2 (some p.2.1) (p.1 + 1))
            sub0.original_text)
        let db4 : DB := { db3 with fragments := db3.fragments ++ f2objs }
        { sub := mark_completed sub1, db := db4, outcome := .ok (),
          trace := [sub0.status, .processing, .completed] }

/-! ## Concrete instances used in witnesses and counterexamples -/

/-- Absence of terminal-state escape in a status sequence: once a terminal
status occurs at position `i`, every later position holds that same
status. -/
def noTerminalEscape (l : List SubStatus) : Prop :=
  ∀ i j : Fin l.length, i ≤ j → isTerminal (l.get i) = true → l.get j = l.get i

/-- Invariant of the sliding-window loop state `(best_score, best_match)`:
the score is a percentage in `[0, 100]` and any stored best match is a
`partial` match whose `verified` flag is exactly the `≥ 70` test on its
own score, itself a percentage in `[0, 100]`. -/
def loopInv (st : ℚ × Option MatchResult) : Prop :=
  0 ≤ st.1 ∧ st.1 ≤ 100 ∧
  ∀ m : MatchResult, st.2 = some m →
    m.match_type = .partialMatch ∧
    m.verified = decide ((70 : ℚ) ≤ m.similarity_score) ∧
    0 ≤ m.similarity_score ∧ m.similarity_score ≤ 100

/-- A verified example fragment. -/
def exVerifiedFrag : Fragment :=
  { submission_id := 1, fragment_type := .F1, content := (r"hello").data,
    start_position := some 0, end_position := some 5, verified := true,
    similarity_score := 100, related_sentence := none,
    sequence_number := 1, created_at := 0 }

/-- An unverified example fragment. -/
def exUnverifiedFrag : Fragment :=
  { submission_id := 1, fragment_type := .F1, content := (r"zzz").data,
    start_position := none, end_position := none, verified := false,
    similarity_score := 0, related_sentence := none,
    sequence_number := 2, created_at := 0 }

/-- A pending submission. -/
def exPendingSub : TextSubmission :=
  { id := 1, original_text := (r"alpha beta gamma delta words here").data,
    status := .pending, error_message := none }

/-- A failed submission. -/
def exFailedSub : TextSubmission :=
  { id := 2, original_text := (r"some text").data,
    status := .failed, error_message := some (r"boom").data }

/-- An empty database. -/
def exEmptyDB : DB := { summaries := [], fragments := [] }

/-- Two example sentences. -/
def exSentA : Str := (r"First sentence.").data

/-- Second example sentence. -/
def exSentB : Str := (r"Second sentence.").data

/-- Example justification error text. -/
def exJustErr : Str := (r"api down").data

/-- A generation environment whose justification call fails exactly on
`exSentA` and succeeds elsewhere. -/
def exGenJust : Gen :=
  { s1 := .ok (r"sum").data, f1 := .ok [], s2 := fun _ => .ok (r"sum2").data,
    just := fun s => if s = exSentA then .error exJustErr else .ok s }

/-- A generation environment whose first stage fails. -/
def exGenFailS1 : Gen :=
  { s1 := .error (r"openai down").data, f1 := .ok [],
    s2 := fun _ => .ok (r"x").data, just := fun _ => .ok (r"x").data }

/-- Ten fragment strings, all verbatim substrings of
`exPendingSub.original_text`. -/
def exTenFragments : List Str :=
  [(r"alpha").data, (r"beta").data, (r"gamma").data, (r"delta").data,
   (r"words").data, (r"here").data, (r"alpha beta").data,
   (r"beta gamma").data, (r"delta words").data, (r"words here").data]

/-- Error text raised by the stage-3 (S2) generation in the failing run. -/
def exS2Err : Str := (r"S2 generation failed").data

/-- The fragment content of the spec's no-match test. -/
def exC5Content : Str := (r"xyz-not-present").data

/-- A 40-character text sharing no words — and no characters — with
`exC5Content`: forty question marks. -/
def exC5TextQ : Str := List.replicate 40 '?'

/-- A 40-character text sharing no words with `exC5Content` but sharing
the single character `t` (at index 21). -/
def exC5TextT : Str := List.replicate 21 '?' ++ 't' :: List.replicate 18 '?'

/-- A generation environment where stages 1 and 2 succeed and stage 3
(S2 generation) raises. -/
def exGenFailS2 : Gen :=
  { s1 := .ok (r"A summary. Another line.").data, f1 := .ok exTenFragments,
    s2 := fun _ => .error exS2Err, just := fun s => .ok s }

end TextProc

namespace TextProc

/-! ## Theorems -/

/-! ### Bounds for the SequenceMatcher port

`find_longest_match` on the region `[alo, ahi) × [blo, bhi)` returns a
triple `(i, j, k)` with `alo ≤ i`, `blo ≤ j`, and `i + k ≤ ahi`,
`j + k ≤ bhi` whenever `k > 0` (and `(i, j) = (alo, blo)` when `k = 0`).
This bounds the total size of the matching blocks by
`min (len a) (len b)`, which in turn bounds `ratio()` by 1. -/

theorem flmInner_step_inv (alo blo bhi i : Nat) (prev : Nat → Nat)
    (hi : alo ≤ i)
    (hprev : ∀ j, prev j ≤ j + 1 - blo ∧ prev j ≤ i - alo ∧
      (prev j ≠ 0 → blo ≤ j ∧ j < bhi))
    (st : (Nat × Nat × Nat) × (Nat → Nat)) (j : Nat)
    (hjb : blo ≤ j) (hjh : j < bhi)
    (hbest : alo ≤ st.1.1 ∧ blo ≤ st.1.2.1 ∧
      (st.1.2.2 = 0 → st.1.1 = alo ∧ st.1.2.1 = blo) ∧
      (0 < st.1.2.2 → st.1.1 + st.1.2.2 ≤ i + 1 ∧ st.1.2.1 + st.1.2.2 ≤ bhi))
    (hacc : ∀ x, st.2 x ≤ x + 1 - blo ∧ st.2 x ≤ i + 1 - alo ∧
      (st.2 x ≠ 0 → blo ≤ x ∧ x < bhi)) :
    (alo ≤ (flmInner prev i st j).1.1 ∧ blo ≤ (flmInner prev i st j).1.2.1 ∧
      ((flmInner prev i st j).1.2.2 = 0 →
        (flmInner prev i st j).1.1 = alo ∧ (flmInner prev i st j).1.2.1 = blo) ∧
      (0 < (flmInner prev i st j).1.2.2 →
        (flmInner prev i st j).1.1 + (flmInner prev i st j).1.2.2 ≤ i + 1 ∧
        (flmInner prev i st j).1.2.1 + (flmInner prev i st j).1.2.2 ≤ bhi)) ∧
    (∀ x, (flmInner prev i st j).2 x ≤ x + 1 - blo ∧
      (flmInner prev i st j).2 x ≤ i + 1 - alo ∧
      ((flmInner prev i st j).2 x ≠ 0 → blo ≤ x ∧ x < bhi)) := by
  have hk1 : (if j = 0 then 0 else prev (j - 1)) + 1 ≤ j + 1 - blo := by
    by_cases hj0 : j = 0
    · simp only [hj0, if_pos]
      omega
    · have h1 := (hprev (j - 1)).1
      simp only [hj0, if_neg, ite_false]
      omega
  have hk2 : (if j = 0 then 0 else prev (j - 1)) + 1 ≤ i + 1 - alo := by
    by_cases hj0 : j = 0
    · simp only [hj0, if_pos]
      omega
    · have h2 := (hprev (j - 1)).2.1
      simp only [hj0, if_neg, ite_false]
      omega
  obtain ⟨hb1, hb2, hb3, hb4⟩ := hbest
  unfold flmInner
  dsimp only
  set K := (if j = 0 then 0 else prev (j - 1)) + 1 with hK
  constructor
  · split_ifs with hlt
    · refine ⟨?_, ?_, ?_, ?_⟩ <;> dsimp only <;> omega
    · exact ⟨hb1, hb2, hb3, hb4⟩
  · intro x
    split_ifs with hlt <;> dsimp only <;> by_cases hx : x = j <;>
      simp only [hx, ite_true, ite_false]
    · exact ⟨hk1, hk2, fun _ => ⟨hjb, hjh⟩⟩
    · exact hacc x
    · exact ⟨hk1, hk2, fun _ => ⟨hjb, hjh⟩⟩
    · exact hacc x

theorem flmInner_fold_inv (alo blo bhi i : Nat) (prev : Nat → Nat)
    (hi : alo ≤ i)
    (hprev : ∀ j, prev j ≤ j + 1 - blo ∧ prev j ≤ i - alo ∧
      (prev j ≠ 0 → blo ≤ j ∧ j < bhi)) :
    ∀ (js : List Nat) (st : (Nat × Nat × Nat) × (Nat → Nat)),
      (∀ j ∈ js, blo ≤ j ∧ j < bhi) →
      (alo ≤ st.1.1 ∧ blo ≤ st.1.2.1 ∧
        (st.1.2.2 = 0 → st.1.1 = alo ∧ st.1.2.1 = blo) ∧
        (0 < st.1.2.2 → st.1.1 + st.1.2.2 ≤ i + 1 ∧ st.1.2.1 + st.1.2.2 ≤ bhi)) →
      (∀ x, st.2 x ≤ x + 1 - blo ∧ st.2 x ≤ i + 1 - alo ∧
        (st.2 x ≠ 0 → blo ≤ x ∧ x < bhi)) →
      (alo ≤ (js.foldl (flmInner prev i) st).1.1 ∧
        blo ≤ (js.foldl (flmInner prev i) st).1.2.1 ∧
        ((js.foldl (flmInner prev i) st).1.2.2 = 0 →
          (js.foldl (flmInner prev i) st).1.1 = alo ∧
          (js.foldl (flmInner prev i) st).1.2.1 = blo) ∧
        (0 < (js.foldl (flmInner prev i) st).1.2.2 →
          (js.foldl (flmInner prev i) st).1.1 +
            (js.foldl (flmInner prev i) st).1.2.2 ≤ i + 1 ∧
          (js.foldl (flmInner prev i) st).1.2.1 +
            (js.foldl (flmInner prev i) st).1.2.2 ≤ bhi)) ∧
      (∀ x, (js.foldl (flmInner prev i) st).2 x ≤ x + 1 - blo ∧
        (js.foldl (flmInner prev i) st).2 x ≤ i + 1 - alo ∧
        ((js.foldl (flmInner prev i) st).2 x ≠ 0 → blo ≤ x ∧ x < bhi)) := by
  intro js
  induction js with
  | nil => intro st _ hbest hacc; exact ⟨hbest, hacc⟩
  | cons j js ih =>
    intro st hjs hbest hacc
    rw [List.foldl_cons]
    have hj := hjs j (List.mem_cons_self j js)
    have hstep := flmInner_step_inv alo blo bhi i prev hi hprev st j hj.1 hj.2
      hbest hacc
    exact ih (flmInner prev i st j)
      (fun j' hj' => hjs j' (List.mem_cons_of_mem j hj')) hstep.1 hstep.2

theorem flmOuter_step_inv (a b : Str) (alo blo bhi i : Nat) (hi : alo ≤ i)
    (st : (Nat × Nat × Nat) × (Nat → Nat))
    (hbest : alo ≤ st.1.1 ∧ blo ≤ st.1.2.1 ∧
      (st.1.2.2 = 0 → st.1.1 = alo ∧ st.1.2.1 = blo) ∧
      (0 < st.1.2.2 → st.1.1 + st.1.2.2 ≤ i ∧ st.1.2.1 + st.1.2.2 ≤ bhi))
    (hacc : ∀ x, st.2 x ≤ x + 1 - blo ∧ st.2 x ≤ i - alo ∧
      (st.2 x ≠ 0 → blo ≤ x ∧ x < bhi)) :
    (alo ≤ (flmOuter a b blo bhi st i).1.1 ∧
      blo ≤ (flmOuter a b blo bhi st i).1.2.1 ∧
      ((flmOuter a b blo bhi st i).1.2.2 = 0 →
        (flmOuter a b blo bhi st i).1.1 = alo ∧
        (flmOuter a b blo bhi st i).1.2.1 = blo) ∧
      (0 < (flmOuter a b blo bhi st i).1.2.2 →
        (flmOuter a b blo bhi st i).1.1 + (flmOuter a b blo bhi st i).1.2.2 ≤ i + 1 ∧
        (flmOuter a b blo bhi st i).1.2.1 + (flmOuter a b blo bhi st i).1.2.2 ≤ bhi)) ∧
    (∀ x, (flmOuter a b blo bhi st i).2 x ≤ x + 1 - blo ∧
      (flmOuter a b blo bhi st i).2 x ≤ i + 1 - alo ∧
      ((flmOuter a b blo bhi st i).2 x ≠ 0 → blo ≤ x ∧ x < bhi)) := by
  unfold flmOuter
  dsimp only
  apply flmInner_fold_inv alo blo bhi i st.2 hi
  · intro x
    exact hacc x
  · intro j hj
    rw [List.mem_filter] at hj
    have := hj.2
    simp only [Bool.and_eq_true, decide_eq_true_eq] at this
    exact this
  · dsimp only
    refine ⟨hbest.1, hbest.2.1, hbest.2.2.1, ?_⟩
    intro hpos
    have := hbest.2.2.2 hpos
    omega
  · intro x
    dsimp only
    omega

theorem flmCore_fold_inv (a b : Str) (alo blo bhi : Nat) :
    ∀ (n s : Nat) (st : (Nat × Nat × Nat) × (Nat → Nat)), alo ≤ s →
      (alo ≤ st.1.1 ∧ blo ≤ st.1.2.1 ∧
        (st.1.2.2 = 0 → st.1.1 = alo ∧ st.1.2.1 = blo) ∧
        (0 < st.1.2.2 → st.1.1 + st.1.2.2 ≤ s ∧ st.1.2.1 + st.1.2.2 ≤ bhi)) →
      (∀ x, st.2 x ≤ x + 1 - blo ∧ st.2 x ≤ s - alo ∧
        (st.2 x ≠ 0 → blo ≤ x ∧ x < bhi)) →
      (alo ≤ ((List.range' s n).foldl (flmOuter a b blo bhi) st).1.1 ∧
        blo ≤ ((List.range' s n).foldl (flmOuter a b blo bhi) st).1.2.1 ∧
        (((List.range' s n).foldl (flmOuter a b blo bhi) st).1.2.2 = 0 →
          ((List.range' s n).foldl (flmOuter a b blo bhi) st).1.1 = alo ∧
          ((List.range' s n).foldl (flmOuter a b blo bhi) st).1.2.1 = blo) ∧
        (0 < ((List.range' s n).foldl (flmOuter a b blo bhi) st).1.2.2 →
          ((List.range' s n).foldl (flmOuter a b blo bhi) st).1.1 +
            ((List.range' s n).foldl (flmOuter a b blo bhi) st).1.2.2 ≤ s + n ∧
          ((List.range' s n).foldl (flmOuter a b blo bhi) st).1.2.1 +
            ((List.range' s n).foldl (flmOuter a b blo bhi) st).1.2.2 ≤ bhi)) := by
  intro n
  induction n with
  | zero =>
    intro s st hs hbest _
    simp only [List.range', List.foldl_nil]
    exact ⟨hbest.1, hbest.2.1, hbest.2.2.1, fun hpos => hbest.2.2.2 hpos⟩
  | succ n ih =>
    intro s st hs hbest hacc
    rw [List.range'_succ, List.foldl_cons]
    have hstep := flmOuter_step_inv a b alo blo bhi s hs st hbest hacc
    have hrec := ih (s + 1) (flmOuter a b blo bhi st s) (by omega) hstep.1 hstep.2
    refine ⟨hrec.1, hrec.2.1, hrec.2.2.1, ?_⟩
    intro hpos
    have := hrec.2.2.2 hpos
    omega

theorem flmCore_inv (a b : Str) (alo ahi blo bhi : Nat) :
    alo ≤ (flmCore a b alo ahi blo bhi).1 ∧
    blo ≤ (flmCore a b alo ahi blo bhi).2.1 ∧
    ((flmCore a b alo ahi blo bhi).2.2 = 0 →
      (flmCore a b alo ahi blo bhi).1 = alo ∧
      (flmCore a b alo ahi blo bhi).2.1 = blo) ∧
    (0 < (flmCore a b alo ahi blo bhi).2.2 →
      (flmCore a b alo ahi blo bhi).1 + (flmCore a b alo ahi blo bhi).2.2 ≤ ahi ∧
      (flmCore a b alo ahi blo bhi).2.1 + (flmCore a b alo ahi blo bhi).2.2 ≤ bhi) := by
  unfold flmCore
  have h := flmCore_fold_inv a b alo blo bhi (ahi - alo) alo
    ((alo, blo, 0), fun _ => 0) (le_refl alo)
    (by dsimp only; exact ⟨le_refl _, le_refl _, fun _ => ⟨rfl, rfl⟩, by omega⟩)
    (by intro x; dsimp only; omega)
  refine ⟨h.1, h.2.1, h.2.2.1, ?_⟩
  intro hpos
  have h2 := h.2.2.2 hpos
  have h1 := h.1
  omega

theorem extendLow_inv (a b : Str) (jv : Bool) (alo blo ahi bhi : Nat) :
    ∀ besti bestj bestsize,
      alo ≤ besti → blo ≤ bestj →
      (bestsize = 0 → besti = alo ∧ bestj = blo) →
      (0 < bestsize → besti + bestsize ≤ ahi ∧ bestj + bestsize ≤ bhi) →
      (alo ≤ (extendLow a b jv alo blo besti bestj bestsize).1 ∧
       blo ≤ (extendLow a b jv alo blo besti bestj bestsize).2.1 ∧
       ((extendLow a b jv alo blo besti bestj bestsize).2.2 = 0 →
         (extendLow a b jv alo blo besti bestj bestsize).1 = alo ∧
         (extendLow a b jv alo blo besti bestj bestsize).2.1 = blo) ∧
       (0 < (extendLow a b jv alo blo besti bestj bestsize).2.2 →
         (extendLow a b jv alo blo besti bestj bestsize).1 +
           (extendLow a b jv alo blo besti bestj bestsize).2.2 ≤ ahi ∧
         (extendLow a b jv alo blo besti bestj bestsize).2.1 +
           (extendLow a b jv alo blo besti bestj bestsize).2.2 ≤ bhi)) := by
  have HF : ∀ (fuel besti bestj bestsize : Nat),
      alo ≤ besti → blo ≤ bestj →
      (bestsize = 0 → besti = alo ∧ bestj = blo) →
      (0 < bestsize → besti + bestsize ≤ ahi ∧ bestj + bestsize ≤ bhi) →
      (alo ≤ (extendLowF a b jv alo blo fuel besti bestj bestsize).1 ∧
       blo ≤ (extendLowF a b jv alo blo fuel besti bestj bestsize).2.1 ∧
       ((extendLowF a b jv alo blo fuel besti bestj bestsize).2.2 = 0 →
         (extendLowF a b jv alo blo fuel besti bestj bestsize).1 = alo ∧
         (extendLowF a b jv alo blo fuel besti bestj bestsize).2.1 = blo) ∧
       (0 < (extendLowF a b jv alo blo fuel besti bestj bestsize).2.2 →
         (extendLowF a b jv alo blo fuel besti bestj bestsize).1 +
           (extendLowF a b jv alo blo fuel besti bestj bestsize).2.2 ≤ ahi ∧
         (extendLowF a b jv alo blo fuel besti bestj bestsize).2.1 +
           (extendLowF a b jv alo blo fuel besti bestj bestsize).2.2 ≤ bhi)) := by
    intro fuel
    induction fuel with
    | zero =>
      intro besti bestj bestsize h1 h2 h3 h4
      simp only [extendLowF]
      exact ⟨h1, h2, h3, h4⟩
    | succ fuel ih =>
      intro besti bestj bestsize h1 h2 h3 h4
      simp only [extendLowF]
      split_ifs with hcond
      · have hbs : bestsize ≠ 0 := by
          intro h0
          have := h3 h0
          omega
        have h4' := h4 (Nat.pos_of_ne_zero hbs)
        exact ih (besti - 1) (bestj - 1) (bestsize + 1)
          (by omega) (by omega) (by omega) (by intro _; omega)
      · exact ⟨h1, h2, h3, h4⟩
  intro besti bestj bestsize h1 h2 h3 h4
  exact HF besti besti bestj bestsize h1 h2 h3 h4

theorem extendHigh_inv (a b : Str) (jv : Bool) (ahi bhi besti bestj : Nat) :
    ∀ bestsize,
      (0 < bestsize → besti + bestsize ≤ ahi ∧ bestj + bestsize ≤ bhi) →
      ((extendHigh a b jv ahi bhi besti bestj bestsize = 0 → bestsize = 0) ∧
       (0 < extendHigh a b jv ahi bhi besti bestj bestsize →
         besti + extendHigh a b jv ahi bhi besti bestj bestsize ≤ ahi ∧
         bestj + extendHigh a b jv ahi bhi besti bestj bestsize ≤ bhi)) := by
  have H : ∀ (fuel bestsize : Nat),
      (0 < bestsize → besti + bestsize ≤ ahi ∧ bestj + bestsize ≤ bhi) →
      ((extendHighF a b jv ahi bhi besti bestj fuel bestsize = 0 → bestsize = 0) ∧
       (0 < extendHighF a b jv ahi bhi besti bestj fuel bestsize →
         besti + extendHighF a b jv ahi bhi besti bestj fuel bestsize ≤ ahi ∧
         bestj + extendHighF a b jv ahi bhi besti bestj fuel bestsize ≤ bhi)) := by
    intro fuel
    induction fuel with
    | zero =>
      intro bs hh
      simp only [extendHighF]
      exact ⟨fun h => h, hh⟩
    | succ fuel ih =>
      intro bs hh
      simp only [extendHighF]
      split_ifs with hcond
      · have hrec := ih (bs + 1) (by intro _; omega)
        exact ⟨fun h0 => absurd (hrec.1 h0) (by omega), hrec.2⟩
      · exact ⟨fun h => h, hh⟩
  intro bestsize
  exact H ahi bestsize

theorem findLongestMatch_inv (a b : Str) (alo ahi blo bhi : Nat) :
    alo ≤ (findLongestMatch a b alo ahi blo bhi).1 ∧
    blo ≤ (findLongestMatch a b alo ahi blo bhi).2.1 ∧
    (0 < (findLongestMatch a b alo ahi blo bhi).2.2 →
      (findLongestMatch a b alo ahi blo bhi).1 +
        (findLongestMatch a b alo ahi blo bhi).2.2 ≤ ahi ∧
      (findLongestMatch a b alo ahi blo bhi).2.1 +
        (findLongestMatch a b alo ahi blo bhi).2.2 ≤ bhi) := by
  unfold findLongestMatch
  dsimp only
  have hc := flmCore_inv a b alo ahi blo bhi
  generalize hE : flmCore a b alo ahi blo bhi = c at hc ⊢
  have he1 := extendLow_inv a b false alo blo ahi bhi c.1 c.2.1 c.2.2
    hc.1 hc.2.1 hc.2.2.1 hc.2.2.2
  generalize hE1 : extendLow a b false alo blo c.1 c.2.1 c.2.2 = e1 at he1 ⊢
  have hs2 := extendHigh_inv a b false ahi bhi e1.1 e1.2.1 e1.2.2
    (fun hpos => he1.2.2.2 hpos)
  generalize hE2 : extendHigh a b false ahi bhi e1.1 e1.2.1 e1.2.2 = s2 at hs2 ⊢
  have he3 := extendLow_inv a b true alo blo ahi bhi e1.1 e1.2.1 s2
    he1.1 he1.2.1 (fun h0 => he1.2.2.1 (hs2.1 h0)) (fun hpos => hs2.2 hpos)
  generalize hE3 : extendLow a b true alo blo e1.1 e1.2.1 s2 = e3 at he3 ⊢
  have hs4 := extendHigh_inv a b true ahi bhi e3.1 e3.2.1 e3.2.2
    (fun hpos => he3.2.2.2 hpos)
  exact ⟨he3.1, he3.2.1, fun hpos => hs4.2 hpos⟩

theorem sumSizes_nil : sumSizes [] = 0 := rfl

theorem sumSizes_cons (x : Nat × Nat × Nat) (l : List (Nat × Nat × Nat)) :
    sumSizes (x :: l) = x.2.2 + sumSizes l := by
  simp [sumSizes]

theorem sumSizes_append (l1 l2 : List (Nat × Nat × Nat)) :
    sumSizes (l1 ++ l2) = sumSizes l1 + sumSizes l2 := by
  simp [sumSizes]

theorem matchingBlocksRec_sum_le (a b : Str) :
    ∀ (fuel alo ahi blo bhi : Nat),
      sumSizes (matchingBlocksRec a b fuel alo ahi blo bhi) ≤
        min (ahi - alo) (bhi - blo) := by
  intro fuel
  induction fuel with
  | zero =>
    intro alo ahi blo bhi
    simp [matchingBlocksRec, sumSizes]
  | succ fuel ih =>
    intro alo ahi blo bhi
    have hm := findLongestMatch_inv a b alo ahi blo bhi
    rw [matchingBlocksRec]
    generalize hM : findLongestMatch a b alo ahi blo bhi = m at hm ⊢
    split_ifs with h0 h1 h2 <;>
      [skip;
       skip;
       skip;
       skip;
       skip] <;>
      simp only [sumSizes_nil, sumSizes_append, sumSizes_cons, List.nil_append]
    · omega
    · have hL := ih alo m.1 blo m.2.1
      have hR := ih (m.1 + m.2.2) ahi (m.2.1 + m.2.2) bhi
      have hb := hm.2.2 (Nat.pos_of_ne_zero h0)
      omega
    · have hL := ih alo m.1 blo m.2.1
      have hb := hm.2.2 (Nat.pos_of_ne_zero h0)
      omega
    · have hR := ih (m.1 + m.2.2) ahi (m.2.1 + m.2.2) bhi
      have hb := hm.2.2 (Nat.pos_of_ne_zero h0)
      omega
    · have hb := hm.2.2 (Nat.pos_of_ne_zero h0)
      omega

theorem mergeAdjacent_sum :
    ∀ (l : List (Nat × Nat × Nat)) (cur : Nat × Nat × Nat)
      (acc : List (Nat × Nat × Nat)),
      sumSizes (mergeAdjacent l cur acc) = sumSizes acc + cur.2.2 + sumSizes l := by
  intro l
  induction l with
  | nil =>
    intro cur acc
    rw [mergeAdjacent]
    split_ifs with h
    · rw [sumSizes_append, sumSizes_cons, sumSizes_nil]
      omega
    · rw [sumSizes_nil]
      omega
  | cons blk rest ih =>
    intro cur acc
    rw [mergeAdjacent]
    split_ifs with h1 h2
    · rw [ih, sumSizes_cons]
      dsimp only
      omega
    · rw [ih, sumSizes_append, sumSizes_cons, sumSizes_cons, sumSizes_nil]
      omega
    · rw [ih, sumSizes_cons]
      omega

theorem sumSizes_getMatchingBlocks_le (a b : Str) :
    sumSizes (getMatchingBlocks a b) ≤ min a.length b.length := by
  unfold getMatchingBlocks
  dsimp only
  rw [sumSizes_append, mergeAdjacent_sum]
  have h := matchingBlocksRec_sum_le a b (a.length + b.length + 1) 0 a.length 0 b.length
  simp only [Nat.sub_zero] at h
  rw [sumSizes_cons, sumSizes_nil]
  dsimp only
  omega

theorem smRatio_nonneg (a b : Str) : 0 ≤ smRatio a b := by
  unfold smRatio
  dsimp only
  split_ifs with h
  · positivity
  · norm_num

theorem smRatio_le_one (a b : Str) : smRatio a b ≤ 1 := by
  unfold smRatio
  dsimp only
  split_ifs with h
  · have hM := sumSizes_getMatchingBlocks_le a b
    have hpos : (0 : ℚ) < (a.length : ℚ) + (b.length : ℚ) := by
      have hn : 0 < a.length + b.length := Nat.pos_of_ne_zero h
      exact_mod_cast hn
    rw [div_le_one hpos]
    have hle : 2 * sumSizes (getMatchingBlocks a b) ≤ a.length + b.length := by
      omega
    exact_mod_cast hle
  · norm_num

theorem roundHalfEven_nonneg (q : ℚ) (h : 0 ≤ q) : 0 ≤ roundHalfEven q := by
  unfold roundHalfEven
  have hf : (0 : ℤ) ≤ ⌊q⌋ := Int.floor_nonneg.mpr h
  dsimp only
  split_ifs <;> omega

theorem roundHalfEven_le_100 (q : ℚ) (h : q ≤ 100) : roundHalfEven q ≤ 100 := by
  unfold roundHalfEven
  have hf : ⌊q⌋ ≤ 100 := by
    have h1 : ⌊q⌋ ≤ ⌊(100 : ℚ)⌋ := Int.floor_le_floor h
    simpa using h1
  have hfl : (⌊q⌋ : ℚ) ≤ q := Int.floor_le q
  dsimp only
  split_ifs with h1 h2 h3
  · exact hf
  · have hlt : (⌊q⌋ : ℚ) < 100 := by
      rw [not_lt] at h1
      linarith
    have : ⌊q⌋ < 100 := by exact_mod_cast hlt
    omega
  · exact hf
  · have hlt : (⌊q⌋ : ℚ) < 100 := by
      rw [not_lt] at h1 h2
      have : q - (⌊q⌋ : ℚ) = 1/2 := le_antisymm h2 h1
      linarith
    have : ⌊q⌋ < 100 := by exact_mod_cast hlt
    omega

theorem foldl_max_le (c : ℚ) :
    ∀ (l : List ℚ) (init : ℚ), init ≤ c → (∀ x ∈ l, x ≤ c) →
      l.foldl max init ≤ c := by
  intro l
  induction l with
  | nil => intro init h _; simpa using h
  | cons x xs ih =>
    intro init hinit hall
    rw [List.foldl_cons]
    exact ih (max init x) (max_le hinit (hall x (List.mem_cons_self x xs)))
      (fun y hy => hall y (List.mem_cons_of_mem x hy))

theorem le_foldl_max :
    ∀ (l : List ℚ) (init : ℚ), init ≤ l.foldl max init := by
  intro l
  induction l with
  | nil => intro init; simp
  | cons x xs ih =>
    intro init
    rw [List.foldl_cons]
    exact le_trans (le_max_left init x) (ih (max init x))

theorem maxQ_le (c : ℚ) (hc : 0 ≤ c) (l : List ℚ) (h : ∀ x ∈ l, x ≤ c) :
    maxQ l ≤ c := by
  cases l with
  | nil => simpa [maxQ] using hc
  | cons x xs =>
    unfold maxQ
    exact foldl_max_le c xs x (h x (List.mem_cons_self x xs))
      (fun y hy => h y (List.mem_cons_of_mem x hy))

theorem maxQ_nonneg (l : List ℚ) (h : ∀ x ∈ l, 0 ≤ x) : 0 ≤ maxQ l := by
  cases l with
  | nil => simp [maxQ]
  | cons x xs =>
    unfold maxQ
    exact le_trans (h x (List.mem_cons_self x xs)) (le_foldl_max xs x)

theorem fuzzRatio_nonneg (s1 s2 : Str) : 0 ≤ fuzzRatio s1 s2 := by
  unfold fuzzRatio
  split_ifs
  · norm_num
  · norm_num
  · have h : (0 : ℤ) ≤ roundHalfEven (100 * smRatio s1 s2) :=
      roundHalfEven_nonneg _ (mul_nonneg (by norm_num) (smRatio_nonneg s1 s2))
    exact_mod_cast h

theorem fuzzRatio_le_100 (s1 s2 : Str) : fuzzRatio s1 s2 ≤ 100 := by
  unfold fuzzRatio
  split_ifs
  · norm_num
  · norm_num
  · have hle : 100 * smRatio s1 s2 ≤ 100 := by
      have := smRatio_le_one s1 s2
      linarith
    have h : roundHalfEven (100 * smRatio s1 s2) ≤ 100 :=
      roundHalfEven_le_100 _ hle
    exact_mod_cast h

theorem rheMaxQ_cast_nonneg (l : List ℚ) (h : ∀ x ∈ l, 0 ≤ x) :
    (0 : ℚ) ≤ ((roundHalfEven (100 * maxQ l) : ℤ) : ℚ) := by
  have hr := roundHalfEven_nonneg (100 * maxQ l)
    (by have := maxQ_nonneg l h; linarith)
  exact_mod_cast hr

theorem rheMaxQ_cast_le_100 (l : List ℚ) (h : ∀ x ∈ l, x ≤ 1) :
    ((roundHalfEven (100 * maxQ l) : ℤ) : ℚ) ≤ 100 := by
  have hr := roundHalfEven_le_100 (100 * maxQ l)
    (by have := maxQ_le 1 (by norm_num) l h; linarith)
  exact_mod_cast hr

theorem fuzzPartialRatio_nonneg (s1 s2 : Str) : 0 ≤ fuzzPartialRatio s1 s2 := by
  unfold fuzzPartialRatio
  dsimp only
  split_ifs <;> try norm_num
  all_goals
    refine roundHalfEven_nonneg _ (mul_nonneg (by norm_num) (maxQ_nonneg _ ?_))
  all_goals
    intro x hx
  all_goals
    obtain ⟨blk, _, rfl⟩ := List.mem_map.1 hx
  all_goals
    exact smRatio_nonneg _ _

theorem fuzzPartialRatio_le_100 (s1 s2 : Str) : fuzzPartialRatio s1 s2 ≤ 100 := by
  unfold fuzzPartialRatio
  dsimp only
  split_ifs <;> try norm_num
  · refine le_of_eq_of_le (Eq.refl _) ?_
    have hm : maxQ ((getMatchingBlocks s1 s2).map (fun blk =>
        smRatio s1 ((s2.drop (blk.2.1 - blk.1)).take s1.length))) ≤ 1 :=
      maxQ_le 1 (by norm_num) _ (fun x hx => by
        obtain ⟨blk, _, rfl⟩ := List.mem_map.1 hx
        exact smRatio_le_one _ _)
    exact_mod_cast roundHalfEven_le_100 _ (by linarith)
  · refine le_of_eq_of_le (Eq.refl _) ?_
    have hm : maxQ ((getMatchingBlocks s2 s1).map (fun blk =>
        smRatio s2 ((s1.drop (blk.2.1 - blk.1)).take s2.length))) ≤ 1 :=
      maxQ_le 1 (by norm_num) _ (fun x hx => by
        obtain ⟨blk, _, rfl⟩ := List.mem_map.1 hx
        exact smRatio_le_one _ _)
    exact_mod_cast roundHalfEven_le_100 _ (by linarith)

theorem fuzzTokenSortRatio_nonneg (s1 s2 : Str) : 0 ≤ fuzzTokenSortRatio s1 s2 :=
  fuzzRatio_nonneg _ _

theorem fuzzTokenSortRatio_le_100 (s1 s2 : Str) : fuzzTokenSortRatio s1 s2 ≤ 100 :=
  fuzzRatio_le_100 _ _

theorem fuzzTokenSetRatio_nonneg (s1 s2 : Str) : 0 ≤ fuzzTokenSetRatio s1 s2 := by
  unfold fuzzTokenSetRatio
  dsimp only
  split_ifs
  · norm_num
  · norm_num
  · exact le_trans (fuzzRatio_nonneg _ _) (le_max_left _ _)

theorem fuzzTokenSetRatio_le_100 (s1 s2 : Str) : fuzzTokenSetRatio s1 s2 ≤ 100 := by
  unfold fuzzTokenSetRatio
  dsimp only
  split_ifs
  · norm_num
  · norm_num
  · exact max_le (fuzzRatio_le_100 _ _)
      (max_le (fuzzRatio_le_100 _ _) (fuzzRatio_le_100 _ _))

theorem combined_bounds (r p ts tse : ℚ) (hr0 : 0 ≤ r) (hr1 : r ≤ 100)
    (hp0 : 0 ≤ p) (hp1 : p ≤ 100) (hts0 : 0 ≤ ts) (hts1 : ts ≤ 100)
    (htse0 : 0 ≤ tse) (htse1 : tse ≤ 100) :
    0 ≤ r * (3/10) + p * (2/5) + ts * (3/20) + tse * (3/20) ∧
    r * (3/10) + p * (2/5) + ts * (3/20) + tse * (3/20) ≤ 100 := by
  constructor <;> linarith

theorem windowStep_preserves (fragment text : Str) (wsize : Nat)
    (st : ℚ × Option MatchResult) (i : Nat) (h : loopInv st) :
    loopInv (windowStep fragment text wsize st i) := by
  obtain ⟨h0, h1, h2⟩ := h
  unfold windowStep loopInv
  dsimp only
  split_ifs with hlt hblk
  · have hc := combined_bounds _ _ _ _
      (fuzzRatio_nonneg fragment ((text.drop i).take (min (i + wsize) text.length - i)))
      (fuzzRatio_le_100 fragment ((text.drop i).take (min (i + wsize) text.length - i)))
      (fuzzPartialRatio_nonneg fragment ((text.drop i).take (min (i + wsize) text.length - i)))
      (fuzzPartialRatio_le_100 fragment ((text.drop i).take (min (i + wsize) text.length - i)))
      (fuzzTokenSortRatio_nonneg fragment ((text.drop i).take (min (i + wsize) text.length - i)))
      (fuzzTokenSortRatio_le_100 fragment ((text.drop i).take (min (i + wsize) text.length - i)))
      (fuzzTokenSetRatio_nonneg fragment ((text.drop i).take (min (i + wsize) text.length - i)))
      (fuzzTokenSetRatio_le_100 fragment ((text.drop i).take (min (i + wsize) text.length - i)))
    refine ⟨hc.1, hc.2, ?_⟩
    intro m hm
    injection hm with hm
    subst hm
    exact ⟨rfl, rfl, hc.1, hc.2⟩
  · have hc := combined_bounds _ _ _ _
      (fuzzRatio_nonneg fragment ((text.drop i).take (min (i + wsize) text.length - i)))
      (fuzzRatio_le_100 fragment ((text.drop i).take (min (i + wsize) text.length - i)))
      (fuzzPartialRatio_nonneg fragment ((text.drop i).take (min (i + wsize) text.length - i)))
      (fuzzPartialRatio_le_100 fragment ((text.drop i).take (min (i + wsize) text.length - i)))
      (fuzzTokenSortRatio_nonneg fragment ((text.drop i).take (min (i + wsize) text.length - i)))
      (fuzzTokenSortRatio_le_100 fragment ((text.drop i).take (min (i + wsize) text.length - i)))
      (fuzzTokenSetRatio_nonneg fragment ((text.drop i).take (min (i + wsize) text.length - i)))
      (fuzzTokenSetRatio_le_100 fragment ((text.drop i).take (min (i + wsize) text.length - i)))
    exact ⟨hc.1, hc.2, h2⟩
  · exact ⟨h0, h1, h2⟩

theorem windowFold_inv (fragment text : Str) (wsize : Nat) (idxs : List Nat)
    (st : ℚ × Option MatchResult) (h : loopInv st) :
    loopInv (idxs.foldl (windowStep fragment text wsize) st) := by
  induction idxs generalizing st with
  | nil => simpa using h
  | cons i is ih =>
    rw [List.foldl_cons]
    exact ih (windowStep fragment text wsize st i) (windowStep_preserves _ _ _ _ _ h)

/-- Every result of `_calculate_similarity_scores` is of one of five
shapes, matching the five tiers of the matcher. -/
theorem calc_result_cases (content text : Str) :
    ((calculate_similarity_scores content text).match_type = .exact ∧
     (calculate_similarity_scores content text).similarity_score = 100 ∧
     (calculate_similarity_scores content text).verified = true ∧
     ∃ p : Nat, strFind text (stripWs content) = some p ∧
       (calculate_similarity_scores content text).start_position = some p ∧
       (calculate_similarity_scores content text).end_position =
         some (p + (stripWs content).length)) ∨
    ((calculate_similarity_scores content text).match_type = .case_insensitive ∧
     (calculate_similarity_scores content text).similarity_score = 95 ∧
     (calculate_similarity_scores content text).verified = true ∧
     ∃ p : Nat, strFind (lowerStr text) (lowerStr (stripWs content)) = some p ∧
       (calculate_similarity_scores content text).start_position = some p ∧
       (calculate_similarity_scores content text).end_position =
         some (p + (stripWs content).length)) ∨
    ((calculate_similarity_scores content text).match_type = .partialMatch ∧
     (calculate_similarity_scores content text).verified =
       decide ((70 : ℚ) ≤ (calculate_similarity_scores content text).similarity_score) ∧
     0 ≤ (calculate_similarity_scores content text).similarity_score ∧
     (calculate_similarity_scores content text).similarity_score ≤ 100) ∨
    ((calculate_similarity_scores content text).match_type = .wordOverlap ∧
     (calculate_similarity_scores content text).verified =
       decide ((70 : ℚ) ≤ (calculate_similarity_scores content text).similarity_score) ∧
     0 ≤ (calculate_similarity_scores content text).similarity_score ∧
     (calculate_similarity_scores content text).similarity_score ≤ 100) ∨
    ((calculate_similarity_scores content text).match_type = .noMatch ∧
     (calculate_similarity_scores content text).similarity_score = 0 ∧
     (calculate_similarity_scores content text).verified = false ∧
     (calculate_similarity_scores content text).start_position = none ∧
     (calculate_similarity_scores content text).end_position = none) := by
  unfold calculate_similarity_scores
  rcases hE1 : strFind text (stripWs content) with _ | p <;> simp only [hE1]
  case some =>
    left
    refine ⟨?_, ?_, ?_, p, ?_, ?_, ?_⟩ <;> trivial
  rcases hE2 : strFind (lowerStr text) (lowerStr (stripWs content)) with _ | q <;>
    simp only [hE2]
  case some =>
    right; left
    refine ⟨?_, ?_, ?_, q, ?_, ?_, ?_⟩ <;> trivial
  dsimp only
  have hinv := windowFold_inv (stripWs content) text
    (min ((stripWs content).length + 100) text.length)
    (pyRange (text.length + 1 - (stripWs content).length)
      (max 1 ((stripWs content).length / 4)))
    (0, none) ⟨le_refl 0, by norm_num, fun m hm => by cases hm⟩
  obtain ⟨hL0, hL1, hL2⟩ := hinv
  split_ifs with h50 hW hV
  · -- word-overlap replacement
    right; right; right; left
    have hfw : 0 < ((wordTokens (lowerStr (stripWs content))).dedup).length :=
      List.length_pos.mpr hW.1
    have hov : (((wordTokens (lowerStr (stripWs content))).dedup.filter
        (· ∈ (wordTokens (lowerStr text)).dedup)).length : ℚ) ≤
        (((wordTokens (lowerStr (stripWs content))).dedup).length : ℚ) := by
      exact_mod_cast List.length_filter_le _ _
    have hfwq : (0 : ℚ) < (((wordTokens (lowerStr (stripWs content))).dedup).length : ℚ) := by
      exact_mod_cast hfw
    have hdl : (((wordTokens (lowerStr (stripWs content))).dedup.filter
        (· ∈ (wordTokens (lowerStr text)).dedup)).length : ℚ) /
        (((wordTokens (lowerStr (stripWs content))).dedup).length : ℚ) ≤ 1 :=
      (div_le_one hfwq).mpr hov
    simp only [Option.getD_some]
    refine ⟨?_, ?_, ?_, ?_⟩
    · trivial
    · trivial
    · dsimp only
      positivity
    · dsimp only
      nlinarith
  all_goals
    rcases hL : (pyRange (text.length + 1 - (stripWs content).length)
        (max 1 ((stripWs content).length / 4))).foldl
        (windowStep (stripWs content) text
          (min ((stripWs content).length + 100) text.length)) (0, none) |>.2
      with _ | m
  all_goals simp only [hL, Option.getD_some, Option.getD_none]
  · right; right; right; right
    refine ⟨?_, ?_, ?_, ?_, ?_⟩ <;> trivial
  · right; right; left
    exact hL2 m hL
  · right; right; right; right
    refine ⟨?_, ?_, ?_, ?_, ?_⟩ <;> trivial
  · right; right; left
    exact hL2 m hL
  · right; right; right; right
    refine ⟨?_, ?_, ?_, ?_, ?_⟩ <;> trivial
  · right; right; left
    exact hL2 m hL

/-- C1.  A verification result is marked verified exactly when its
similarity score is at least 70 or its match type is `exact` or
`case_insensitive` (the latter two always carry scores 100 and 95, so the
clauses are consistent). -/
theorem verified_iff_score_or_exact (content text : Str) :
    ((calculate_similarity_scores content text).verified = true) ↔
    ((70 : ℚ) ≤ (calculate_similarity_scores content text).similarity_score ∨
     (calculate_similarity_scores content text).match_type = .exact ∨
     (calculate_similarity_scores content text).match_type = .case_insensitive) := by
  rcases calc_result_cases content text with
    ⟨h1, h2, h3, _⟩ | ⟨h1, h2, h3, _⟩ | ⟨h1, h2, _, _⟩ | ⟨h1, h2, _, _⟩ |
    ⟨h1, h2, h3, _, _⟩
  · simp [h1, h2, h3]
  · simp [h1, h2, h3]
  · rw [h1, h2]
    simp only [decide_eq_true_eq]
    constructor
    · exact fun h => Or.inl h
    · rintro (h | h | h)
      · exact h
      · exact absurd h (by decide)
      · exact absurd h (by decide)
  · rw [h1, h2]
    simp only [decide_eq_true_eq]
    constructor
    · exact fun h => Or.inl h
    · rintro (h | h | h)
      · exact h
      · exact absurd h (by decide)
      · exact absurd h (by decide)
  · rw [h1, h2, h3]
    constructor
    · intro h
      cases h
    · rintro (h | h | h)
      · exact absurd h (by norm_num)
      · exact absurd h (by decide)
      · exact absurd h (by decide)

/-- C8.  The similarity score of every verification result, on any
inputs, lies in the closed interval `[0, 100]`. -/
theorem similarity_score_in_range (content text : Str) :
    0 ≤ (calculate_similarity_scores content text).similarity_score ∧
    (calculate_similarity_scores content text).similarity_score ≤ 100 := by
  rcases calc_result_cases content text with
    ⟨_, h2, _, _⟩ | ⟨_, h2, _, _⟩ | ⟨_, _, h3, h4⟩ | ⟨_, _, h3, h4⟩ | ⟨_, h2, _, _, _⟩
  · rw [h2]
    norm_num
  · rw [h2]
    norm_num
  · exact ⟨h3, h4⟩
  · exact ⟨h3, h4⟩
  · rw [h2]
    norm_num

theorem strFind_some (hay pat : Str) (i : Nat) (h : strFind hay pat = some i) :
    (hay.drop i).take pat.length = pat ∧ i + pat.length ≤ hay.length := by
  unfold strFind at h
  split_ifs at h with hlen
  have hmem := List.mem_of_mem_head? h
  rw [List.mem_filter] at hmem
  obtain ⟨hr, hp⟩ := hmem
  rw [List.mem_range] at hr
  exact ⟨of_decide_eq_true hp, by omega⟩

/-- C3 counterexample.  For a case-insensitive match the slice
`original_text[start:end]` equals the content only up to case, not
verbatim: content `"Hello"` against `"say hello now"` matches
case-insensitively at `[4, 9)`, but the slice is `"hello" ≠ "Hello"`. -/
theorem ci_slice_counterexample :
    (calculate_similarity_scores (r"Hello").data (r"say hello now").data).match_type =
      .case_insensitive ∧
    (calculate_similarity_scores (r"Hello").data (r"say hello now").data).start_position =
      some 4 ∧
    (calculate_similarity_scores (r"Hello").data (r"say hello now").data).end_position =
      some 9 ∧
    (((r"say hello now").data.drop 4).take 5 ≠ (r"Hello").data) := by
  refine ⟨?_, ?_, ?_, ?_⟩ <;> decide

/-- C3 amended.  If the match type is `exact` the similarity score is 100,
offsets are present, and the trimmed fragment content equals the slice
`original_text[start:end]`; if the match type is `case_insensitive` the
similarity score is 95, offsets are present, and the slice equals the
trimmed content up to case (lowercasing both sides makes them equal) —
verbatim slice equality holds only for exact matches. -/
theorem match_slice_invariants (content text : Str) :
    ((calculate_similarity_scores content text).match_type = .exact →
      (calculate_similarity_scores content text).similarity_score = 100 ∧
      ∃ s : Nat, (calculate_similarity_scores content text).start_position = some s ∧
        (calculate_similarity_scores content text).end_position =
          some (s + (stripWs content).length) ∧
        (text.drop s).take (stripWs content).length = stripWs content) ∧
    ((calculate_similarity_scores content text).match_type = .case_insensitive →
      (calculate_similarity_scores content text).similarity_score = 95 ∧
      ∃ s : Nat, (calculate_similarity_scores content text).start_position = some s ∧
        (calculate_similarity_scores content text).end_position =
          some (s + (stripWs content).length) ∧
        lowerStr ((text.drop s).take (stripWs content).length) =
          lowerStr (stripWs content)) := by
  rcases calc_result_cases content text with
    ⟨h1, h2, _, p, hfind, hsp, hep⟩ | ⟨h1, h2, _, p, hfind, hsp, hep⟩ |
    ⟨h1, _, _, _⟩ | ⟨h1, _, _, _⟩ | ⟨h1, _, _, _, _⟩
  · constructor
    · intro _
      exact ⟨h2, p, hsp, hep, (strFind_some text (stripWs content) p hfind).1⟩
    · intro hc
      rw [h1] at hc
      cases hc
  · constructor
    · intro hc
      rw [h1] at hc
      cases hc
    · intro _
      refine ⟨h2, p, hsp, hep, ?_⟩
      have hs := (strFind_some (lowerStr text) (lowerStr (stripWs content)) p hfind).1
      rw [lowerStr, lowerStr, List.length_map] at hs
      rw [← List.map_drop, ← List.map_take] at hs
      rw [lowerStr, lowerStr]
      exact hs
  · refine ⟨fun hc => ?_, fun hc => ?_⟩ <;> rw [h1] at hc <;> cases hc
  · refine ⟨fun hc => ?_, fun hc => ?_⟩ <;> rw [h1] at hc <;> cases hc
  · refine ⟨fun hc => ?_, fun hc => ?_⟩ <;> rw [h1] at hc <;> cases hc

/-- C3 amended witness: an exact match (content `"hello"` in
`"say hello now"`) and a case-insensitive match (content `"Hello"`),
with the hypotheses discharged at those inputs. -/
theorem match_slice_invariants_witness :
    ((calculate_similarity_scores (r"hello").data (r"say hello now").data).similarity_score =
      100 ∧
     ∃ s : Nat,
       (calculate_similarity_scores (r"hello").data (r"say hello now").data).start_position =
         some s ∧
       (calculate_similarity_scores (r"hello").data (r"say hello now").data).end_position =
         some (s + (stripWs (r"hello").data).length) ∧
       ((r"say hello now").data.drop s).take (stripWs (r"hello").data).length =
         stripWs (r"hello").data) ∧
    ((calculate_similarity_scores (r"Hello").data (r"say hello now").data).similarity_score =
      95 ∧
     ∃ s : Nat,
       (calculate_similarity_scores (r"Hello").data (r"say hello now").data).start_position =
         some s ∧
       (calculate_similarity_scores (r"Hello").data (r"say hello now").data).end_position =
         some (s + (stripWs (r"Hello").data).length) ∧
       lowerStr (((r"say hello now").data.drop s).take (stripWs (r"Hello").data).length) =
         lowerStr (stripWs (r"Hello").data)) := by
  constructor
  · exact (match_slice_invariants (r"hello").data (r"say hello now").data).1 (by decide)
  · exact (match_slice_invariants (r"Hello").data (r"say hello now").data).2 (by decide)

/-- C10.  `Fragment.verify_against_text` updates only `similarity_score`,
`start_position`, `end_position` and `verified` (set from the similarity
calculation on the fragment's content); `content`, `fragment_type`,
`related_sentence`, `sequence_number`, the owning submission and the
created timestamp are unchanged. -/
theorem verify_against_text_frame (f : Fragment) (text : Str) :
    (verify_against_text f text).content = f.content ∧
    (verify_against_text f text).fragment_type = f.fragment_type ∧
    (verify_against_text f text).related_sentence = f.related_sentence ∧
    (verify_against_text f text).sequence_number = f.sequence_number ∧
    (verify_against_text f text).submission_id = f.submission_id ∧
    (verify_against_text f text).created_at = f.created_at ∧
    (verify_against_text f text).similarity_score =
      (calculate_similarity_scores f.content text).similarity_score ∧
    (verify_against_text f text).start_position =
      (calculate_similarity_scores f.content text).start_position ∧
    (verify_against_text f text).end_position =
      (calculate_similarity_scores f.content text).end_position ∧
    (verify_against_text f text).verified =
      (calculate_similarity_scores f.content text).verified := by
  simp [verify_against_text]

/-- C7.  Each per-kind verification rate equals `verifiedCount / total`
when `total > 0` and is exactly `0` when `total = 0`, and the overall
rate is the same computation over the combined F1+F2 population. -/
theorem verification_rates (f1 f2 : List Fragment) :
    ((0 < f1.length →
      (verificationSummary f1 f2).F1_verification_rate =
        ((verificationSummary f1 f2).F1_verified : ℚ) /
          ((verificationSummary f1 f2).F1_total : ℚ)) ∧
     (f1.length = 0 → (verificationSummary f1 f2).F1_verification_rate = 0)) ∧
    ((0 < f2.length →
      (verificationSummary f1 f2).F2_verification_rate =
        ((verificationSummary f1 f2).F2_verified : ℚ) /
          ((verificationSummary f1 f2).F2_total : ℚ)) ∧
     (f2.length = 0 → (verificationSummary f1 f2).F2_verification_rate = 0)) ∧
    (verificationSummary f1 f2).overall_verification_rate =
      (if 0 < (f1 ++ f2).length then
        ((((f1 ++ f2).filter (fun f => f.verified)).length : ℚ) /
          (((f1 ++ f2).length : ℚ)))
      else 0) := by
  refine ⟨⟨?_, ?_⟩, ⟨?_, ?_⟩, ?_⟩
  · intro h
    simp [verificationSummary, h]
  · intro h
    simp [verificationSummary, h]
  · intro h
    simp [verificationSummary, h]
  · intro h
    simp [verificationSummary, h]
  · simp only [verificationSummary, List.length_append, List.filter_append]
    split_ifs with h
    · push_cast
      ring
    · rfl

/-- C7 witness: concrete populations, one of two F1 fragments verified,
no F2 fragments. -/
theorem verification_rates_witness :
    ((verificationSummary [exVerifiedFrag, exUnverifiedFrag] []).F1_verification_rate =
      ((verificationSummary [exVerifiedFrag, exUnverifiedFrag] []).F1_verified : ℚ) /
        ((verificationSummary [exVerifiedFrag, exUnverifiedFrag] []).F1_total : ℚ)) ∧
    (verificationSummary [exVerifiedFrag, exUnverifiedFrag] []).F2_verification_rate = 0 := by
  refine ⟨(verification_rates [exVerifiedFrag, exUnverifiedFrag] []).1.1 (by decide), ?_⟩
  exact (verification_rates [exVerifiedFrag, exUnverifiedFrag] []).2.1.2 (by decide)

/-- C9.  The justification stage returns exactly one `(sentence,
justification)` pair per input sentence, in order; a failing per-sentence
call yields the error-marker placeholder for that sentence only; a
successful call yields the cleaned justification.  The stage is a total
function (it never raises). -/
theorem extract_justifications_per_sentence (gen : Gen) (orig : Str)
    (sentences : List Str) :
    (extract_justification_fragments gen orig sentences).map Prod.fst = sentences ∧
    (extract_justification_fragments gen orig sentences).length = sentences.length ∧
    (∀ (i : Nat) (hi : i < sentences.length) (e : Str),
      gen.just (sentences.get ⟨i, hi⟩) = .error e →
      (extract_justification_fragments gen orig sentences)[i]? =
        some (sentences.get ⟨i, hi⟩, errorMarker e)) ∧
    (∀ (i : Nat) (hi : i < sentences.length) (j : Str),
      gen.just (sentences.get ⟨i, hi⟩) = .ok j →
      (extract_justification_fragments gen orig sentences)[i]? =
        some (sentences.get ⟨i, hi⟩, cleanJustification j)) := by
  refine ⟨?_, ?_, ?_, ?_⟩
  · simp only [extract_justification_fragments, List.map_map]
    have hfn : (Prod.fst ∘ fun s => (match gen.just s with
        | .ok j => (s, cleanJustification j)
        | .error e => (s, errorMarker e))) = id := by
      funext s
      rcases hg : gen.just s with e | j <;> simp [hg]
    rw [hfn, List.map_id]
  · simp [extract_justification_fragments]
  · intro i hi e he
    simp only [extract_justification_fragments]
    rw [List.getElem?_map, List.getElem?_eq_getElem hi]
    simp only [List.get_eq_getElem] at he
    simp [he]
  · intro i hi j hj
    simp only [extract_justification_fragments]
    rw [List.getElem?_map, List.getElem?_eq_getElem hi]
    simp only [List.get_eq_getElem] at hj
    simp [hj]

/-- C9 witness: two sentences, the first one's call fails, the second
succeeds; one pair per sentence in order, the failing one degraded to the
error marker. -/
theorem extract_justifications_per_sentence_witness :
    (extract_justification_fragments exGenJust (r"orig").data
      [exSentA, exSentB]).map Prod.fst = [exSentA, exSentB] ∧
    (extract_justification_fragments exGenJust (r"orig").data
      [exSentA, exSentB])[0]? = some (exSentA, errorMarker exJustErr) ∧
    (extract_justification_fragments exGenJust (r"orig").data
      [exSentA, exSentB])[1]? = some (exSentB, cleanJustification exSentB) := by
  refine ⟨(extract_justifications_per_sentence exGenJust (r"orig").data
      [exSentA, exSentB]).1, ?_, ?_⟩
  · exact (extract_justifications_per_sentence exGenJust (r"orig").data
      [exSentA, exSentB]).2.2.1 0 (by decide) exJustErr (by rfl)
  · exact (extract_justifications_per_sentence exGenJust (r"orig").data
      [exSentA, exSentB]).2.2.2 1 (by decide) exSentB (by rfl)

/-- C4 counterexample.  The state-machine operations are unguarded: the
`complete` operation applied to a submission in the terminal state
`failed` moves it to `completed`, so a transition does leave a terminal
state. -/
theorem terminal_state_op_counterexample :
    isTerminal exFailedSub.status = true ∧
    (applyOp .complete exFailedSub).status = .completed ∧
    (applyOp .complete exFailedSub).status ≠ exFailedSub.status := by
  decide

/-- C4 amended.  Within any full-pipeline run starting from a pending
submission, the submission's status sequence never leaves a terminal
state: the run visits `pending`, then `processing`, then exactly one
terminal status, which is final. -/
theorem pipeline_trace_no_terminal_escape (gen : Gen) (sub0 : TextSubmission)
    (db0 : DB) (h : sub0.status = .pending) :
    noTerminalEscape (process_text_submission gen sub0 db0).trace := by
  have hshape : (process_text_submission gen sub0 db0).trace =
      [sub0.status, .processing, .completed] ∨
      (process_text_submission gen sub0 db0).trace =
      [sub0.status, .processing, .failed] := by
    unfold process_text_submission
    rcases gen.s1 with e | s1c
    · right; rfl
    · dsimp only
      rcases gen.f1 with e | f1list
      · right; rfl
      · dsimp only
        rcases gen.s2 f1list with e | s2c
        · right; rfl
        · left; rfl
  rw [h] at hshape
  rcases hshape with h2 | h2 <;> rw [h2] <;> unfold noTerminalEscape <;> decide

/-- C2.  For every full-pipeline run in which some stage raises, the
orchestrator transitions the submission to failed with the captured error
text and re-raises `Text processing failed: {e}` to the caller, and every
record persisted by an earlier stage is retained, not rolled back.  In
the model the fallible operations of a run are exactly the three
generation calls of stages 1-3 (stage 4's per-sentence calls are caught
inside its own loop and never abort the stage, see
`extract_justification_fragments`), so a run raises iff its outcome is an
error.  The statement covers every failing run: (1) every error outcome
comes from one of the three stages raising, with the captured text stored
on the submission, the prefixed message re-raised, and the pre-run rows
still a prefix of the database; (2) a stage-1 failure leaves the database
exactly as it was; (3) a stage-2 failure retains the stage-1 S1 summary
and creates no fragments; (4) a stage-3 (S2 generation) failure after 10
extracted fragments retains the 10 F1 fragments created in stage 2, each
carrying the verification result of its content against the original
text. -/
theorem pipeline_stage_failure_retains (gen : Gen) (sub0 : TextSubmission)
    (db0 : DB) :
    (∀ msg : Str, (process_text_submission gen sub0 db0).outcome = .error msg →
      ∃ e : Str,
        (gen.s1 = .error e ∨ gen.f1 = .error e ∨
          ∃ f1list, gen.f1 = .ok f1list ∧ gen.s2 f1list = .error e) ∧
        msg = (r"Text processing failed: ").data ++ e ∧
        (process_text_submission gen sub0 db0).sub.status = .failed ∧
        (process_text_submission gen sub0 db0).sub.error_message = some e ∧
        db0.summaries <+: (process_text_submission gen sub0 db0).db.summaries ∧
        db0.fragments <+: (process_text_submission gen sub0 db0).db.fragments) ∧
    (∀ e : Str, gen.s1 = .error e →
      (process_text_submission gen sub0 db0).sub.status = .failed ∧
      (process_text_submission gen sub0 db0).sub.error_message = some e ∧
      (process_text_submission gen sub0 db0).outcome =
        .error ((r"Text processing failed: ").data ++ e) ∧
      (process_text_submission gen sub0 db0).db = db0) ∧
    (∀ s1c e : Str, gen.s1 = .ok s1c → gen.f1 = .error e →
      (process_text_submission gen sub0 db0).sub.status = .failed ∧
      (process_text_submission gen sub0 db0).sub.error_message = some e ∧
      (process_text_submission gen sub0 db0).outcome =
        .error ((r"Text processing failed: ").data ++ e) ∧
      (process_text_submission gen sub0 db0).db.summaries = db0.summaries ++
        [{ submission_id := sub0.id, summary_type := .S1, content := s1c }] ∧
      (process_text_submission gen sub0 db0).db.fragments = db0.fragments) ∧
    (∀ (s1c : Str) (f1list : List Str) (e : Str),
      gen.s1 = .ok s1c → gen.f1 = .ok f1list → f1list.length = 10 →
      gen.s2 f1list = .error e →
      (process_text_submission gen sub0 db0).sub.status = .failed ∧
      (process_text_submission gen sub0 db0).sub.error_message = some e ∧
      (process_text_submission gen sub0 db0).outcome =
        .error ((r"Text processing failed: ").data ++ e) ∧
      db0.summaries <+: (process_text_submission gen sub0 db0).db.summaries ∧
      db0.fragments <+: (process_text_submission gen sub0 db0).db.fragments ∧
      ((process_text_submission gen sub0 db0).db.fragments.drop
        db0.fragments.length).length = 10 ∧
      ((process_text_submission gen sub0 db0).db.fragments.drop
        db0.fragments.length).map (fun f => f.content) = f1list ∧
      ∀ f ∈ (process_text_submission gen sub0 db0).db.fragments.drop
        db0.fragments.length,
        f.fragment_type = .F1 ∧
        f.verified =
          (calculate_similarity_scores f.content sub0.original_text).verified ∧
        f.similarity_score =
          (calculate_similarity_scores f.content sub0.original_text).similarity_score ∧
        f.start_position =
          (calculate_similarity_scores f.content sub0.original_text).start_position ∧
        f.end_position =
          (calculate_similarity_scores f.content sub0.original_text).end_position) := by
  rcases hs1 : gen.s1 with e1 | s1c
  · -- stage 1 raises: nothing was persisted
    have hrun : process_text_submission gen sub0 db0 =
        { sub := mark_failed e1 (start_processing sub0), db := db0,
          outcome := .error ((r"Text processing failed: ").data ++ e1),
          trace := [sub0.status, .processing, .failed] } := by
      unfold process_text_submission
      rw [hs1]
    rw [hrun]
    refine ⟨?_, ?_, ?_, ?_⟩
    · intro msg hmsg
      dsimp only at hmsg
      injection hmsg with hmsg
      subst hmsg
      exact ⟨e1, Or.inl rfl, rfl, rfl, rfl, List.prefix_rfl, List.prefix_rfl⟩
    · intro e' h'
      injection h' with h'
      subst h'
      exact ⟨rfl, rfl, rfl, rfl⟩
    · intro s1c' e' h1' _
      exact Except.noConfusion h1'
    · intro s1c' f1list' e' h1' _ _ _
      exact Except.noConfusion h1'
  · rcases hf1 : gen.f1 with e2 | f1list
    · -- stage 2 raises: the S1 summary is retained, no fragments exist
      have hrun : process_text_submission gen sub0 db0 =
          { sub := mark_failed e2 (start_processing sub0),
            db := { summaries := db0.summaries ++
                      [{ submission_id := sub0.id, summary_type := .S1,
                         content := s1c }],
                    fragments := db0.fragments },
            outcome := .error ((r"Text processing failed: ").data ++ e2),
            trace := [sub0.status, .processing, .failed] } := by
        unfold process_text_submission
        rw [hs1]
        dsimp only
        rw [hf1]
      rw [hrun]
      refine ⟨?_, ?_, ?_, ?_⟩
      · intro msg hmsg
        dsimp only at hmsg
        injection hmsg with hmsg
        subst hmsg
        exact ⟨e2, Or.inr (Or.inl rfl), rfl, rfl, rfl,
          List.prefix_append _ _, List.prefix_rfl⟩
      · intro e' h'
        exact Except.noConfusion h'
      · intro s1c' e' h1' h2'
        injection h2' with h2'
        subst h2'
        injection h1' with h1'
        subst h1'
        exact ⟨rfl, rfl, rfl, rfl, rfl⟩
      · intro s1c' f1list' e' _ h2' _ _
        exact Except.noConfusion h2'
    · rcases hs2 : gen.s2 f1list with e3 | s2c
      · -- stage 3 raises: S1 summary and verified F1 fragments are retained
        have hrun : process_text_submission gen sub0 db0 =
            { sub := mark_failed e3 (start_processing sub0),
              db := { summaries := db0.summaries ++
                        [{ submission_id := sub0.id, summary_type := .S1,
                           content := s1c }],
                      fragments := db0.fragments ++ f1list.enum.map (fun p =>
                        verify_against_text
                          (newFragment sub0.id .F1 p.2 none (p.1 + 1))
                          sub0.original_text) },
              outcome := .error ((r"Text processing failed: ").data ++ e3),
              trace := [sub0.status, .processing, .failed] } := by
          unfold process_text_submission
          rw [hs1]
          dsimp only
          rw [hf1]
          dsimp only
          rw [hs2]
        rw [hrun]
        refine ⟨?_, ?_, ?_, ?_⟩
        · intro msg hmsg
          dsimp only at hmsg
          injection hmsg with hmsg
          subst hmsg
          exact ⟨e3, Or.inr (Or.inr ⟨f1list, rfl, hs2⟩), rfl, rfl, rfl,
            List.prefix_append _ _, List.prefix_append _ _⟩
        · intro e' h'
          exact Except.noConfusion h'
        · intro s1c' e' _ h2'
          exact Except.noConfusion h2'
        · intro s1c' f1list' e' h1' h2' hlen h3'
          injection h2' with h2'
          subst h2'
          rw [hs2] at h3'
          injection h3' with h3'
          subst h3'
          refine ⟨rfl, rfl, rfl, List.prefix_append _ _, List.prefix_append _ _,
            ?_, ?_, ?_⟩
          · rw [List.drop_left]
            simp [hlen]
          · rw [List.drop_left, List.map_map]
            have hfn : ((fun f : Fragment => f.content) ∘ fun p : Nat × Str =>
                verify_against_text (newFragment sub0.id .F1 p.2 none (p.1 + 1))
                  sub0.original_text) = Prod.snd := by
              funext p
              simp [verify_against_text, newFragment]
            rw [hfn, List.enum_map_snd]
          · intro f hf
            rw [List.drop_left] at hf
            obtain ⟨p, hp, rfl⟩ := List.mem_map.1 hf
            simp [verify_against_text, newFragment]
      · -- all stages succeed: there is no error outcome
        have houtcome : (process_text_submission gen sub0 db0).outcome = .ok () := by
          unfold process_text_submission
          rw [hs1]
          dsimp only
          rw [hf1]
          dsimp only
          rw [hs2]
        refine ⟨?_, ?_, ?_, ?_⟩
        · intro msg hmsg
          rw [houtcome] at hmsg
          exact Except.noConfusion hmsg
        · intro e' h'
          exact Except.noConfusion h'
        · intro s1c' e' _ h2'
          exact Except.noConfusion h2'
        · intro s1c' f1list' e' _ h2' _ h3'
          injection h2' with h2'
          subst h2'
          rw [hs2] at h3'
          exact Except.noConfusion h3'

/-- C2 witness: two concrete failing runs.  In the first, stage 1 raises
`openai down`: the submission ends failed with that text and the database
is untouched.  In the second, stages 1-2 succeed with 10 fragments and the
S2 stage raises: the submission ends failed with the S2 error text and the
10 F1 fragments created in stage 2 are retained. -/
theorem pipeline_stage_failure_retains_witness :
    (process_text_submission exGenFailS1 exPendingSub exEmptyDB).sub.status =
      .failed ∧
    (process_text_submission exGenFailS1 exPendingSub exEmptyDB).sub.error_message =
      some ((r"openai down").data) ∧
    (process_text_submission exGenFailS1 exPendingSub exEmptyDB).db = exEmptyDB ∧
    (process_text_submission exGenFailS2 exPendingSub exEmptyDB).sub.status =
      .failed ∧
    (process_text_submission exGenFailS2 exPendingSub exEmptyDB).sub.error_message =
      some exS2Err ∧
    ((process_text_submission exGenFailS2 exPendingSub exEmptyDB).db.fragments.drop
      exEmptyDB.fragments.length).length = 10 := by
  have h1 := (pipeline_stage_failure_retains exGenFailS1 exPendingSub exEmptyDB).2.1
    ((r"openai down").data) rfl
  have h2 :=
    (pipeline_stage_failure_retains exGenFailS2 exPendingSub exEmptyDB).2.2.2
      ((r"A summary. Another line.").data) exTenFragments exS2Err rfl rfl
      (by decide) rfl
  exact ⟨h1.1, h1.2.1, h1.2.2.2, h2.1, h2.2.1, h2.2.2.2.2.2.1⟩

/-- C6 counterexample.  Empty trimmed fragment content is not a
no-match case: Python `find("") == 0`, so the exact tier fires and the
verifier returns score 100, match type `exact`, verified true, with
offsets `[0, 0)` — not score 0 / `no_match` / unverified / null
offsets. -/
theorem empty_content_counterexample :
    calculate_similarity_scores (r"  ").data (r"abcdef").data =
      { similarity_score := 100, start_position := some 0,
        end_position := some 0, match_type := .exact, verified := true } := by
  decide

/-- C6 amended.  A degenerate empty input on which no tier fires is a
nonempty (after trimming) fragment against an empty original text: there
the verifier returns score 0, match type `no_match`, verified false and
null offsets.  (Empty trimmed content instead hits the exact tier,
because `find("")` returns 0.) -/
theorem empty_text_no_match (content text : Str)
    (hc : stripWs content ≠ []) (ht : text = []) :
    calculate_similarity_scores content text =
      { similarity_score := 0, start_position := none, end_position := none,
        match_type := .noMatch, verified := false } := by
  subst ht
  have hlen : 0 < (stripWs content).length := List.length_pos.mpr hc
  have h1 : strFind [] (stripWs content) = none := by
    unfold strFind
    rw [if_neg]
    intro hle
    simp only [List.length_nil] at hle
    omega
  have h2 : strFind (lowerStr []) (lowerStr (stripWs content)) = none := by
    show strFind [] (lowerStr (stripWs content)) = none
    unfold strFind
    rw [if_neg]
    intro hle
    simp only [List.length_nil, lowerStr, List.length_map] at hle
    omega
  unfold calculate_similarity_scores
  simp only [h1, h2]
  have hidx : pyRange (List.length ([] : Str) + 1 - (stripWs content).length)
      (max 1 ((stripWs content).length / 4)) = [] := by
    unfold pyRange
    have hz : List.length ([] : Str) + 1 - (stripWs content).length = 0 := by
      simp only [List.length_nil]
      omega
    rw [hz]
    have hdiv : (0 + max 1 ((stripWs content).length / 4) - 1) /
        max 1 ((stripWs content).length / 4) = 0 :=
      Nat.div_eq_of_lt (by omega)
    rw [hdiv]
    rfl
  rw [hidx]
  have hw : (wordTokens (lowerStr ([] : Str))).dedup = ([] : List Str) := rfl
  simp [hw]

/-- C6 amended witness: nonempty content `"xyz"` against the empty
text. -/
theorem empty_text_no_match_witness :
    calculate_similarity_scores (r"xyz").data [] =
      { similarity_score := 0, start_position := none, end_position := none,
        match_type := .noMatch, verified := false } :=
  empty_text_no_match (r"xyz").data [] (by decide) rfl

section

attribute [local semireducible] Rat.add Rat.mul Rat.sub Rat.inv

set_option maxRecDepth 20000

set_option maxHeartbeats 16000000

/-- C5 counterexample.  Sharing no words with the fragment content does
not force a no-match result: against the 40-character text of question
marks with a single `t` (which shares no word with
`"xyz-not-present"` — the word-set intersection computed the code's way
is empty), the verifier returns a `partial` match with score 41/5 ≠ 0 at
offsets `[21, 22)`, not score 0 / `no_match`. -/
theorem no_shared_words_counterexample :
    exC5TextT.length = 40 ∧
    (wordTokens (lowerStr exC5Content)).dedup.filter
      (fun w => w ∈ (wordTokens (lowerStr exC5TextT)).dedup) = [] ∧
    calculate_similarity_scores exC5Content exC5TextT =
      { similarity_score := 41/5, start_position := some 21,
        end_position := some 22, match_type := .partialMatch,
        verified := false } := by
  refine ⟨by decide, by decide, by decide⟩

/-- C5 amended.  For the fragment content `"xyz-not-present"` against a
40-character text sharing no words — and moreover no characters — with
it (forty question marks), the verifier returns similarity score 0,
match type `no_match`, and verified false; sharing no words alone is not
sufficient (see the counterexample: a shared character already yields a
positive `partial` score). -/
theorem no_match_on_disjoint_text :
    exC5TextQ.length = 40 ∧
    (wordTokens (lowerStr exC5Content)).dedup.filter
      (fun w => w ∈ (wordTokens (lowerStr exC5TextQ)).dedup) = [] ∧
    calculate_similarity_scores exC5Content exC5TextQ =
      { similarity_score := 0, start_position := none, end_position := none,
        match_type := .noMatch, verified := false } := by
  refine ⟨by decide, by decide, by decide⟩

end

/-- C4 amended witness: a concrete failing run from a pending
submission. -/
theorem pipeline_trace_no_terminal_escape_witness :
    noTerminalEscape (process_text_submission exGenFailS1 exPendingSub exEmptyDB).trace :=
  pipeline_trace_no_terminal_escape exGenFailS1 exPendingSub exEmptyDB rfl

end TextProc
